import Mathlib

/-!
Verification of the org-migration logic of the cal.com repository.

The development shallowly embeds the four source files
(`apps/web/lib/orgMigration.ts`, `apps/web/pages/api/orgMigration/moveTeamToOrg.ts`,
`apps/web/pages/api/orgMigration/removeTeamFromOrg.ts`, and the
`removeUserFromOrg` API handler) over an explicit directory store holding
user, team, membership and redirect records.  Each Prisma call becomes an
explicit operation on the store; a thrown `HttpError` becomes `MigErr.http`
carrying the exact status code, a thrown plain `Error` becomes `MigErr.plain`.
JavaScript truthiness on optional strings / numbers (where `""`, `null`,
`undefined` and `0` are falsy) is modelled by the `strTruthy` / `natTruthy`
helpers.  Message strings are abstracted into `ErrTag` values, one per throw
site, so that theorems can distinguish which check produced a failure.
-/

set_option linter.unusedVariables false

/-! ## JavaScript truthiness helpers -/

/-- Truthiness of an optional string: `null` / `undefined` / `""` are falsy. -/
def strTruthy : Option String → Bool
  | none => false
  | some s => !s.isEmpty

/-- Normalize an optional string to `some s` exactly when it is truthy. -/
def truthyStr (o : Option String) : Option String :=
  match o with
  | none => none
  | some s => if s.isEmpty then none else some s

/-- Truthiness of an optional number: `null` / `undefined` / `0` are falsy. -/
def natTruthy : Option Nat → Bool
  | none => false
  | some n => decide (n ≠ 0)

/-- JavaScript `a || b` on optional strings. -/
def orElseStr (a b : Option String) : Option String :=
  if strTruthy a then a else b

/-! ## External helpers not included under the sources -/

/-- Modelled from the spec: `getOrgUsernameFromEmail` (imported by
`orgMigration.ts` from `@calcom/features/auth/signup/utils`, whose source is
not part of the four files verified here) derives the organization username
for a user from the user's email together with the organization's
auto-accept-email domain (spec section 4.2 step 3).  Only its determinism in
the two inputs is ever used by the theorems below. -/
def getOrgUsernameFromEmail (email : String) (autoAcceptEmailDomain : String) : String :=
  match email.splitOn "@" with
  | [namePart, domain] => if domain = autoAcceptEmailDomain then namePart else namePart ++ "-" ++ domain
  | _ => email

/-- Modelled from the spec: `getOrgFullOrigin` (imported from
`@calcom/features/ee/organizations/lib/orgDomains`, not part of the sources
here) maps an organization slug to the organization's vanity origin.  Only
its determinism in the slug is ever used. -/
def getOrgFullOrigin (slug : String) : String :=
  "https://" ++ slug ++ ".cal.com"

/-! ## Data model (spec section 3) -/

/-- Migration provenance stored inside `User.metadata.migratedToOrgFrom`.
The revert path writes `username: null`, so the field is optional. -/
structure MigratedToOrgFrom where
  username : Option String
  reverted : Option Bool
  revertTime : Option Nat
  lastMigrationTime : Option Nat
  deriving DecidableEq

/-- The part of the user metadata blob read and written by the migration code. -/
structure UserMetadata where
  migratedToOrgFrom : Option MigratedToOrgFrom
  deriving DecidableEq

structure User where
  id : Nat
  username : Option String
  email : String
  organizationId : Option Nat
  metadata : UserMetadata
  deriving DecidableEq

/-- The part of the team metadata blob produced by `teamMetadataSchema.parse`. -/
structure TeamMetadata where
  isOrganization : Bool
  requestedSlug : Option String
  orgAutoAcceptEmail : Option String
  deriving DecidableEq

structure Team where
  id : Nat
  slug : Option String
  parentId : Option Nat
  metadata : TeamMetadata
  deriving DecidableEq

inductive MembershipRole where
  | MEMBER
  | ADMIN
  | OWNER
  deriving DecidableEq

structure MembershipRow where
  userId : Nat
  teamId : Nat
  role : MembershipRole
  accepted : Bool
  deriving DecidableEq

inductive RedirectType where
  | User
  | Team
  deriving DecidableEq

/-- A `tempOrgRedirect` row, keyed by `(type, from, fromOrgId)`. -/
structure Redirect where
  rtype : RedirectType
  rfrom : String
  fromOrgId : Nat
  toUrl : String
  deriving DecidableEq

/-- The directory store: all four record kinds, as ordered row lists. -/
structure Store where
  users : List User
  teams : List Team
  memberships : List MembershipRow
  redirects : List Redirect
  deriving DecidableEq

/-! ## Errors -/

/-- One tag per throw site, standing in for the interpolated message string. -/
inductive ErrTag where
  | userIdOrUserNameRequired
  | provideEitherUserIdOrUserName
  | orgNotFound
  | notAnOrg
  | userNotFoundOrPartOfOrg
  | userAlreadyPartOfOtherOrg
  | usernameTakenInOrg
  | userAlreadyInDifferentOrg
  | noNonOrgUsername
  | orgHasNoSlug
  | moreThanOneUserFound
  | teamNotFound
  | noSlugForTeam
  | teamSlugConflict
  | userNotFound
  | userNotPartOfOrg
  | userNeverMigrated
  | userAlreadyReverted
  | noNonOrgUsernameOnRevert
  | membershipNotFound
  deriving DecidableEq

/-- An error raised by the migration code: `http` is a thrown `HttpError`
with its `statusCode`, `plain` is a thrown bare `Error` (or a store-layer
exception), which the API handlers map to a 500 response. -/
inductive MigErr where
  | http : Nat → ErrTag → MigErr
  | plain : ErrTag → MigErr
  deriving DecidableEq

/-- Whether an error is a typed `HttpError` (as opposed to an untyped `Error`). -/
def MigErr.isHttpClass : MigErr → Bool
  | .http _ _ => true
  | .plain _ => false

/-- Outcome of an entry point: like `Except`, but an error also carries the
store, because every sub-step commits independently (spec section 5), so the
mutations made before a throw persist. -/
inductive RunResult (α : Type) where
  | ok : α → Store → RunResult α
  | err : MigErr → Store → RunResult α
  deriving DecidableEq

/-! ## Store primitives (spec section 6) -/

def findUserById (s : Store) (uid : Nat) : Option User :=
  s.users.find? (fun u => decide (u.id = uid))

def findTeamById (s : Store) (tid : Nat) : Option Team :=
  s.teams.find? (fun t => decide (t.id = tid))

def redirectKeyIs (r : Redirect) (ty : RedirectType) (f : String) (orgId : Nat) : Bool :=
  decide (r.rtype = ty ∧ r.rfrom = f ∧ r.fromOrgId = orgId)

/-- `prisma.tempOrgRedirect.upsert` keyed by `(type, from, fromOrgId)`:
overwrite `toUrl` if a row with the key exists, append a new row otherwise. -/
def upsertRedirect (s : Store) (ty : RedirectType) (f : String) (orgId : Nat) (toUrl : String) : Store :=
  if s.redirects.any (fun r => redirectKeyIs r ty f orgId) then
    { s with redirects := s.redirects.map (fun r =>
        if redirectKeyIs r ty f orgId then { r with toUrl := toUrl } else r) }
  else
    { s with redirects := s.redirects ++ [⟨ty, f, orgId, toUrl⟩] }

/-- `prisma.tempOrgRedirect.deleteMany`: delete-if-exists, never an error. -/
def deleteRedirects (s : Store) (ty : RedirectType) (f : String) (orgId : Nat) : Store :=
  { s with redirects := s.redirects.filter (fun r => !redirectKeyIs r ty f orgId) }

def membershipKeyIs (m : MembershipRow) (uid tid : Nat) : Bool :=
  decide (m.userId = uid ∧ m.teamId = tid)

/-- The user's membership rows (`prisma.membership.findMany({where: {userId}})`),
shared by the `updateTeams` of `orgMigration.ts` and of the revert handler. -/
def userMemberships (s : Store) (uid : Nat) : List MembershipRow :=
  s.memberships.filter (fun m => decide (m.userId = uid))

/-- The team ids of the user's membership rows. -/
def userMembershipTeamIds (s : Store) (uid : Nat) : List Nat :=
  (userMemberships s uid).map (fun m => m.teamId)

/-- Teams among `teams` whose id is in `tids`, with organizations dropped. -/
def nonOrgTeamsOf (teams : List Team) (tids : List Nat) : List Team :=
  (teams.filter (fun t => decide (t.id ∈ tids))).filter (fun t => !t.metadata.isOrganization)

/-- The user's membership teams with organizations filtered out — the
`teamsToBeMovedToOrg` / `teamsToBeRemovedFromOrg` list of the two
`updateTeams` functions. -/
def nonOrgMembershipTeams (s : Store) (uid : Nat) : List Team :=
  nonOrgTeamsOf s.teams (userMembershipTeamIds s uid)

/-- The ids of `nonOrgMembershipTeams`. -/
def nonOrgMembershipTeamIds (s : Store) (uid : Nat) : List Nat :=
  (nonOrgMembershipTeams s uid).map (fun t => t.id)

/-- `prisma.membership.upsert` keyed by `(userId, teamId)`. -/
def upsertMembership (s : Store) (uid tid : Nat) (role : MembershipRole) (accepted : Bool) : Store :=
  if s.memberships.any (fun m => membershipKeyIs m uid tid) then
    { s with memberships := s.memberships.map (fun m =>
        if membershipKeyIs m uid tid then { m with role := role, accepted := accepted } else m) }
  else
    { s with memberships := s.memberships ++ [⟨uid, tid, role, accepted⟩] }

/-- `prisma.membership.delete`: unlike `deleteMany`, Prisma's single-record
`delete` raises when no row matches the unique key (the source's own comment
on `removeRedirect` notes that `deleteMany` is chosen precisely because
`delete` would throw); the raised store exception is not an `HttpError`. -/
def deleteMembership (s : Store) (uid tid : Nat) : Except MigErr Store :=
  if s.memberships.any (fun m => membershipKeyIs m uid tid) then
    .ok { s with memberships := s.memberships.filter (fun m => !membershipKeyIs m uid tid) }
  else
    .error (MigErr.plain ErrTag.membershipNotFound)

/-! ## `apps/web/lib/orgMigration.ts` -/

namespace OrgMigration

/-- Argument record of `migrateUserToOrg` (`user` and `targetOrg` flattened). -/
structure MigrateUserArgs where
  userId : Option Nat
  userName : Option String
  targetOrgId : Nat
  targetOrgUsername : Option String
  targetOrgRole : MembershipRole
  targetOrgMembershipAccepted : Bool
  deriving DecidableEq

/-- Lines 225-232: exactly one of `userId` / `userName` must be truthy. -/
def assertUserIdOrUserName (userId : Option Nat) (userName : Option String) : Option MigErr :=
  if !natTruthy userId && !strTruthy userName then
    some (MigErr.http 400 ErrTag.userIdOrUserNameRequired)
  else if natTruthy userId && strTruthy userName then
    some (MigErr.http 400 ErrTag.provideEitherUserIdOrUserName)
  else
    none

/-- Lines 189-203. -/
def getTeamOrThrowError (targetOrgId : Nat) (s : Store) : Except MigErr Team :=
  match findTeamById s targetOrgId with
  | none => .error (MigErr.http 400 ErrTag.orgNotFound)
  | some team => .ok team

/-- Lines 118-143: by `userName`, scan all users with that username and keep
those whose `organizationId` is the target org or `null`; more than one match
throws a plain `Error` (not an `HttpError`).  By `userId`, direct lookup. -/
def getUniqueUserThatDoesntBelongToOrg (userName : Option String) (userId : Option Nat)
    (excludeOrgId : Nat) (s : Store) : Except MigErr (Option User) :=
  match truthyStr userName with
  | some un =>
    let matchingUsers := s.users.filter (fun u => decide (u.username = some un))
    let foundUsers := matchingUsers.filter (fun u =>
      decide (u.organizationId = some excludeOrgId ∨ u.organizationId = none))
    if foundUsers.length > 1 then .error (MigErr.plain ErrTag.moreThanOneUserFound)
    else .ok foundUsers.head?
  | none =>
    match userId with
    | some uid => .ok (findUserById s uid)
    | none => .ok none

/-- Lines 205-223: fail if no candidate was found, or if the candidate has a
truthy `organizationId` different from the target org. -/
def assertUserPartOfOtherOrg (userToMoveToOrg : Option User) (targetOrgId : Nat) :
    Except MigErr User :=
  match userToMoveToOrg with
  | none => .error (MigErr.http 400 ErrTag.userNotFoundOrPartOfOrg)
  | some u =>
    if natTruthy u.organizationId && decide (u.organizationId ≠ some targetOrgId) then
      .error (MigErr.http 400 ErrTag.userAlreadyPartOfOtherOrg)
    else .ok u

/-- Lines 169-187: a truthy `organizationId` different from the target org is
a conflict; equal to the target org is an allowed re-migration. -/
def assertUserPartOfOrgAndRemigrationAllowed (u : User) (targetOrgId : Nat) : Option MigErr :=
  if natTruthy u.organizationId then
    if u.organizationId ≠ some targetOrgId then
      some (MigErr.http 400 ErrTag.userAlreadyInDifferentOrg)
    else none
  else none

/-- Lines 57-62: use the caller-supplied org username if truthy, otherwise
derive it from the candidate's email and `orgAutoAcceptEmail || ""`. -/
def resolveTargetOrgUsername (supplied : Option String) (u : User) (team : Team) : String :=
  match truthyStr supplied with
  | some v => v
  | none => getOrgUsernameFromEmail u.email ((truthyStr team.metadata.orgAutoAcceptEmail).getD "")

/-- Lines 64-83: `findFirst` a user holding `targetOrgUsername` inside the
target org; a hit whose `id` differs from the `userId` *argument* (which is
`undefined` when the caller designated the user by name) is a 400 conflict. -/
def usernameCollision (s : Store) (targetOrgUsername : String) (targetOrgId : Nat)
    (userId : Option Nat) : Option MigErr :=
  match s.users.find? (fun w =>
      decide (w.username = some targetOrgUsername ∧ w.organizationId = some targetOrgId)) with
  | some w => if some w.id ≠ userId then some (MigErr.http 400 ErrTag.usernameTakenInOrg) else none
  | none => none

/-- Lines 91-92: `migratedToOrgFrom?.username || userToMoveToOrg.username`. -/
def nonOrgUserNameOf (u : User) : Option String :=
  orElseStr
    (match u.metadata.migratedToOrgFrom with
     | some m => m.username
     | none => none)
    u.username

/-- Lines 337-366: set `organizationId`, `username`, and overwrite
`metadata.migratedToOrgFrom` with a fresh record (no `reverted` flag). -/
def updateUser (s : Store) (userToMoveToOrg : User) (targetOrgId : Nat)
    (targetOrgUsername nonOrgUserName : String) (now : Nat) : Store :=
  { s with users := s.users.map (fun u =>
      if u.id = userToMoveToOrg.id then
        { u with organizationId := some targetOrgId
               , username := some targetOrgUsername
               , metadata := { migratedToOrgFrom := some ⟨some nonOrgUserName, none, none, some now⟩ } }
      else u) }

/-- Lines 368-415: fetch the user's membership teams, drop organizations, and
bulk-reparent the remaining ones to the target org (only when the user has at
least one membership row); returns the list of non-org teams. -/
def updateTeams (s : Store) (uid : Nat) (targetOrgId : Nat) : List Team × Store :=
  if (userMemberships s uid).length ≠ 0 then
    (nonOrgMembershipTeams s uid,
     { s with teams := s.teams.map (fun t =>
         if t.id ∈ nonOrgMembershipTeamIds s uid then { t with parentId := some targetOrgId } else t) })
  else (nonOrgMembershipTeams s uid, s)

/-- Lines 306-335: membership upsert for `(userId, targetOrgId)`. -/
def updateMembership (s : Store) (uid : Nat) (targetOrgId : Nat) (role : MembershipRole)
    (accepted : Bool) : Store :=
  upsertMembership s uid targetOrgId role accepted

/-- One iteration of the team-redirect loop of lines 280-303: a slug-less
team is logged and skipped, otherwise its redirect is upserted. -/
def teamRedirectUpsert (orgUrl : String) (acc : Store) (t : Team) : Store :=
  match truthyStr t.slug with
  | none => acc
  | some sl => upsertRedirect acc RedirectType.Team sl 0 (orgUrl ++ "/team/" ++ sl)

/-- Lines 234-304: upsert the user redirect and one team redirect per moved
team; a falsy `nonOrgUserName` or org slug skips silently, and a slug-less
team is logged and skipped, never an error. -/
def addRedirect (s : Store) (nonOrgUserName : Option String) (organization : Team)
    (targetOrgUsername : String) (teamsToBeMovedToOrg : List Team) : Store :=
  match truthyStr nonOrgUserName with
  | none => s
  | some nn =>
    match truthyStr (orElseStr organization.slug organization.metadata.requestedSlug) with
    | none => s
    | some orgSlug =>
      let orgUrl := getOrgFullOrigin orgSlug
      let s1 := upsertRedirect s RedirectType.User nn 0 (orgUrl ++ "/" ++ targetOrgUsername)
      teamsToBeMovedToOrg.foldl (teamRedirectUpsert orgUrl) s1

/-- Lines 420-429. -/
def setOrgSlug (s : Store) (targetOrgId : Nat) (targetSlug : String) : Store :=
  { s with teams := s.teams.map (fun t =>
      if t.id = targetOrgId then { t with slug := some targetSlug } else t) }

/-- Lines 145-167: no-op when the org already has a truthy slug; otherwise
adopt `requestedSlug`, or throw 400 when that is also falsy. -/
def setOrgSlugIfNotSet (orgSlug : Option String) (requestedSlug : Option String)
    (targetOrgId : Nat) (s : Store) : Except MigErr Store :=
  if strTruthy orgSlug then .ok s
  else
    match truthyStr requestedSlug with
    | none => .error (MigErr.http 400 ErrTag.orgHasNoSlug)
    | some req => .ok (setOrgSlug s targetOrgId req)

/-- Lines 100-113: the mutation tail of `migrateUserToOrg`, in source order:
user update, team bulk-reparent, membership upsert, redirect maintenance,
slug back-fill.  An error from the slug back-fill leaves all earlier
mutations committed. -/
def applyMigration (s : Store) (u : User) (team : Team) (targetOrgId : Nat)
    (targetOrgUsername nonOrgUserName : String) (role : MembershipRole) (accepted : Bool)
    (now : Nat) : RunResult Unit :=
  let s1 := updateUser s u targetOrgId targetOrgUsername nonOrgUserName now
  let p := updateTeams s1 u.id targetOrgId
  let s3 := updateMembership p.2 u.id targetOrgId role accepted
  let s4 := addRedirect s3 (some nonOrgUserName) team targetOrgUsername p.1
  match setOrgSlugIfNotSet team.slug team.metadata.requestedSlug targetOrgId s4 with
  | .error e => .err e s4
  | .ok s5 => .ok () s5

/-- Lines 26-116: the `migrateUserToOrg` entry point. -/
def migrateUserToOrg (a : MigrateUserArgs) (now : Nat) (s : Store) : RunResult Unit :=
  match assertUserIdOrUserName a.userId a.userName with
  | some e => .err e s
  | none =>
  match getTeamOrThrowError a.targetOrgId s with
  | .error e => .err e s
  | .ok team =>
  if !team.metadata.isOrganization then .err (MigErr.plain ErrTag.notAnOrg) s
  else
  match getUniqueUserThatDoesntBelongToOrg a.userName a.userId a.targetOrgId s with
  | .error e => .err e s
  | .ok userOpt =>
  match assertUserPartOfOtherOrg userOpt a.targetOrgId with
  | .error e => .err e s
  | .ok userToMoveToOrg =>
  let targetOrgUsername := resolveTargetOrgUsername a.targetOrgUsername userToMoveToOrg team
  match usernameCollision s targetOrgUsername a.targetOrgId a.userId with
  | some e => .err e s
  | none =>
  match assertUserPartOfOrgAndRemigrationAllowed userToMoveToOrg a.targetOrgId with
  | some e => .err e s
  | none =>
  match truthyStr (nonOrgUserNameOf userToMoveToOrg) with
  | none => .err (MigErr.http 400 ErrTag.noNonOrgUsername) s
  | some nonOrgUserName =>
  applyMigration s userToMoveToOrg team a.targetOrgId targetOrgUsername nonOrgUserName
    a.targetOrgRole a.targetOrgMembershipAccepted now

end OrgMigration

/-! ## `apps/web/pages/api/orgMigration/moveTeamToOrg.ts` -/

namespace MoveTeamToOrg

structure TeamWithMembers where
  team : Team
  members : List MembershipRow
  deriving DecidableEq

/-- Lines 228-242 (local copy, identical to the one in `orgMigration.ts`). -/
def getTeamOrThrowError (targetOrgId : Nat) (s : Store) : Except MigErr Team :=
  match findTeamById s targetOrgId with
  | none => .error (MigErr.http 400 ErrTag.orgNotFound)
  | some team => .ok team

/-- Lines 158-190: load the team with its members; when its `parentId`
already equals the target org, warn and leave it; otherwise set
`parentId := targetOrgId`.  Note this runs before any org validation. -/
def updateTeam (teamId targetOrgId : Nat) (s : Store) : Except MigErr (TeamWithMembers × Store) :=
  match findTeamById s teamId with
  | none => .error (MigErr.http 400 ErrTag.teamNotFound)
  | some team =>
    let tm : TeamWithMembers := ⟨team, s.memberships.filter (fun m => decide (m.teamId = teamId))⟩
    if team.parentId = some targetOrgId then .ok (tm, s)
    else
      .ok (tm, { s with teams := s.teams.map (fun t =>
        if t.id = teamId then { t with parentId := some targetOrgId } else t) })

/-- Lines 125-156: a falsy team slug is a hard 400 failure here; a falsy org
slug only skips the redirect.  The target URL has no `/team/` segment. -/
def addRedirect (teamSlug : Option String) (orgSlug : Option String) (s : Store) :
    Except MigErr Store :=
  match truthyStr teamSlug with
  | none => .error (MigErr.http 400 ErrTag.noSlugForTeam)
  | some ts =>
    match truthyStr orgSlug with
    | none => .ok s
    | some os => .ok (upsertRedirect s RedirectType.Team ts 0 (getOrgFullOrigin os ++ "/" ++ ts))

/-- Lines 192-212 (local copy of `setOrgSlugIfNotSet`). -/
def setOrgSlugIfNotSet (orgSlug : Option String) (requestedSlug : Option String)
    (targetOrgId : Nat) (s : Store) : Except MigErr Store :=
  if strTruthy orgSlug then .ok s
  else
    match truthyStr requestedSlug with
    | none => .error (MigErr.http 400 ErrTag.orgHasNoSlug)
    | some req => .ok (OrgMigration.setOrgSlug s targetOrgId req)

/-- Lines 105-121: fan out `migrateUserToOrg` over the moved team's members,
stopping at the first failure. -/
def migrateMembers (targetOrgId : Nat) (now : Nat) : List MembershipRow → Store → RunResult Unit
  | [], s => .ok () s
  | m :: rest, s =>
    match OrgMigration.migrateUserToOrg
        ⟨some m.userId, none, targetOrgId, none, m.role, m.accepted⟩ now s with
    | .ok _ s1 => migrateMembers targetOrgId now rest s1
    | .err e s1 => .err e s1

/-- Lines 83-123: the `moveTeamToOrg` entry point.  `updateTeam` (a mutation)
runs before the `isOrganization` check. -/
def moveTeamToOrg (targetOrgId teamId : Nat) (moveMembers : Bool) (now : Nat) (s : Store) :
    RunResult Unit :=
  match getTeamOrThrowError targetOrgId s with
  | .error e => .err e s
  | .ok possibleOrg =>
  match updateTeam teamId targetOrgId s with
  | .error e => .err e s
  | .ok (movedTeam, s1) =>
  if !possibleOrg.metadata.isOrganization then .err (MigErr.plain ErrTag.notAnOrg) s1
  else
  match addRedirect movedTeam.team.slug
      (orElseStr possibleOrg.slug possibleOrg.metadata.requestedSlug) s1 with
  | .error e => .err e s1
  | .ok s2 =>
  match setOrgSlugIfNotSet possibleOrg.slug possibleOrg.metadata.requestedSlug targetOrgId s2 with
  | .error e => .err e s2
  | .ok s3 =>
  if moveMembers then migrateMembers targetOrgId now movedTeam.members s3
  else .ok () s3

end MoveTeamToOrg

/-! ## `apps/web/pages/api/orgMigration/removeTeamFromOrg.ts` -/

namespace RemoveTeamFromOrg

/-- Lines 97-141: when the team's `parentId` differs from the target org,
warn and return its slug without updating; otherwise clear `parentId`.
Modelled from the spec, section 4.5: the store-level uniqueness constraint on
the team slug (Prisma error `P2002` during the update) is remapped to a
user-facing 400 conflict; the constraint itself lives in the Prisma schema,
which is not among the sources here, so the conflict condition — another team
outside any org already holding the same slug — follows the spec's wording. -/
def updateTeam (teamId targetOrgId : Nat) (s : Store) : Except MigErr (Option String × Store) :=
  match findTeamById s teamId with
  | none => .error (MigErr.http 400 ErrTag.teamNotFound)
  | some team =>
    if team.parentId ≠ some targetOrgId then .ok (team.slug, s)
    else
      if decide (team.slug ≠ none) && s.teams.any (fun t =>
          decide (t.id ≠ teamId ∧ t.slug = team.slug ∧ t.parentId = none)) then
        .error (MigErr.http 400 ErrTag.teamSlugConflict)
      else
        .ok (team.slug, { s with teams := s.teams.map (fun t =>
          if t.id = teamId then { t with parentId := none } else t) })

/-- Lines 79-95: a falsy team slug is a hard 400 failure; otherwise
delete-if-exists of the team redirect. -/
def removeRedirect (teamSlug : Option String) (s : Store) : Except MigErr Store :=
  match truthyStr teamSlug with
  | none => .error (MigErr.http 400 ErrTag.noSlugForTeam)
  | some ts => .ok (deleteRedirects s RedirectType.Team ts 0)

/-- Lines 71-77: the `removeTeamFromOrg` entry point; `removeRedirect` runs
unconditionally on the slug returned by `updateTeam`, also on the warn path. -/
def removeTeamFromOrg (targetOrgId teamId : Nat) (s : Store) : RunResult Unit :=
  match updateTeam teamId targetOrgId s with
  | .error e => .err e s
  | .ok (slug, s1) =>
  match removeRedirect slug s1 with
  | .error e => .err e s1
  | .ok s2 => .ok () s2

end RemoveTeamFromOrg

/-! ## `removeUserFromOrg` API handler (`removeFromOrg`) -/

namespace RemoveUserFromOrg

/-- Lines 223-276: same shape as the migration-side `updateTeams`, but the
bulk update clears `parentId`. -/
def updateTeams (s : Store) (uid : Nat) : List Team × Store :=
  if (userMemberships s uid).length ≠ 0 then
    (nonOrgMembershipTeams s uid,
     { s with teams := s.teams.map (fun t =>
         if t.id ∈ nonOrgMembershipTeamIds s uid then { t with parentId := none } else t) })
  else (nonOrgMembershipTeams s uid, s)

/-- Lines 193-221: restore the non-org username, clear `organizationId`, and
overwrite the provenance with `username: null, reverted: true, revertTime`. -/
def updateUser (s : Store) (uid : Nat) (nonOrgUserName : String) (now : Nat) : Store :=
  { s with users := s.users.map (fun u =>
      if u.id = uid then
        { u with organizationId := none
               , username := some nonOrgUserName
               , metadata := { migratedToOrgFrom := some ⟨none, some true, some now, none⟩ } }
      else u) }

/-- One iteration of the team-redirect deletion loop of lines 159-171: a
slug-less team is logged and skipped, otherwise its redirect rows are
deleted. -/
def teamRedirectDelete (acc : Store) (t : Team) : Store :=
  match truthyStr t.slug with
  | none => acc
  | some sl => deleteRedirects acc RedirectType.Team sl 0

/-- Lines 137-172: delete the user redirect (delete-if-exists), then each
team redirect; a slug-less team is logged and skipped here. -/
def removeRedirect (s : Store) (nonOrgUserName : Option String)
    (teamsToBeRemovedFromOrg : List Team) : Store :=
  match truthyStr nonOrgUserName with
  | none => s
  | some nn =>
    let s1 := deleteRedirects s RedirectType.User nn 0
    teamsToBeRemovedFromOrg.foldl teamRedirectDelete s1

/-- Lines 174-191: single-record membership delete — raises when absent. -/
def removeMembership (s : Store) (targetOrgId uid : Nat) : Except MigErr Store :=
  deleteMembership s uid targetOrgId

/-- Lines 68-135: the `removeFromOrg` entry point. -/
def removeFromOrg (targetOrgId userId : Nat) (now : Nat) (s : Store) : RunResult Unit :=
  match findUserById s userId with
  | none => .err (MigErr.http 400 ErrTag.userNotFound) s
  | some u =>
  if u.organizationId ≠ some targetOrgId then .err (MigErr.http 400 ErrTag.userNotPartOfOrg) s
  else
  match u.metadata.migratedToOrgFrom with
  | none => .err (MigErr.http 400 ErrTag.userNeverMigrated) s
  | some prov =>
  if prov.reverted = some true then .err (MigErr.http 400 ErrTag.userAlreadyReverted) s
  else
  match truthyStr prov.username with
  | none => .err (MigErr.http 500 ErrTag.noNonOrgUsernameOnRevert) s
  | some nonOrgUserName =>
  let p := updateTeams s u.id
  let s2 := updateUser p.2 u.id nonOrgUserName now
  let s3 := removeRedirect s2 (some nonOrgUserName) p.1
  match removeMembership s3 targetOrgId u.id with
  | .error e => .err e s3
  | .ok s4 => .ok () s4

end RemoveUserFromOrg

/-! ## General lemmas about lists and the store primitives -/

theorem map_self {α : Type} (f : α → α) (l : List α) (h : ∀ x ∈ l, f x = x) : l.map f = l := by
  induction l with
  | nil => rfl
  | cons x xs ih =>
    simp only [List.map_cons, h x (List.mem_cons_self x xs)]
    rw [ih (fun y hy => h y (List.mem_cons_of_mem x hy))]

theorem foldl_skip {α β : Type} (p : α → Bool) (g : β → α → β)
    (hg : ∀ b a, p a = false → g b a = b) (l : List α) (b : β) :
    (l.filter p).foldl g b = l.foldl g b := by
  induction l generalizing b with
  | nil => rfl
  | cons x xs ih =>
    by_cases hx : p x
    · simp only [List.filter_cons, hx, if_true, List.foldl_cons]
      exact ih (g b x)
    · have hx' : p x = false := by simpa using hx
      simp only [List.filter_cons, hx', Bool.false_eq_true, if_false, List.foldl_cons, hg b x hx']
      exact ih b

theorem find?_map_pred {α : Type} (l : List α) (f : α → α) (p : α → Bool)
    (hpf : ∀ x, p (f x) = p x) : (l.map f).find? p = (l.find? p).map f := by
  rw [List.find?_map]
  have hc : p ∘ f = p := funext hpf
  rw [hc]

theorem filter_map_comm {α : Type} (l : List α) (f : α → α) (p : α → Bool)
    (hpf : ∀ x, p (f x) = p x) : (l.map f).filter p = (l.filter p).map f := by
  induction l with
  | nil => rfl
  | cons x xs ih =>
    by_cases hx : p x = true
    · simp only [List.map_cons, List.filter_cons, hpf x, hx, if_true, ih]
    · have hx' : p x = false := by simpa using hx
      simp only [List.map_cons, List.filter_cons, hpf x, hx', Bool.false_eq_true, if_false, ih]

theorem any_filter_false {α : Type} (l : List α) (p q : α → Bool) (h : l.any p = false) :
    (l.filter q).any p = false := by
  rw [← Bool.not_eq_true] at h ⊢
  intro hc
  apply h
  rw [List.any_eq_true] at hc ⊢
  obtain ⟨x, hx, hpx⟩ := hc
  exact ⟨x, (List.mem_filter.mp hx).1, hpx⟩

theorem find?_upd {α : Type} (P : α → Prop) [DecidablePred P] (q : α → Bool) (f : α → α)
    (l : List α) (u : α) (hu : l.find? (fun x => decide (P x)) = some u)
    (hq : l.find? q = none ∨ l.find? q = some u) (hfq : q (f u) = true) :
    (l.map (fun x => if P x then f x else x)).find? q = some (f u) := by
  induction l with
  | nil => simp at hu
  | cons x xs ih =>
    by_cases hP : P x
    · have hux : u = x := by
        rw [List.find?_cons_of_pos _ (by simpa using hP)] at hu
        exact (Option.some.inj hu).symm
      subst hux
      simp only [List.map_cons, if_pos hP]
      exact List.find?_cons_of_pos _ hfq
    · rw [List.find?_cons_of_neg _ (by simpa using hP)] at hu
      simp only [List.map_cons, if_neg hP]
      rcases hq with hq | hq
      · have hqx : q x = false := by
          have := List.find?_eq_none.mp hq x (List.mem_cons_self x xs)
          simpa using this
        have hxs : xs.find? q = none := by
          apply List.find?_eq_none.mpr
          intro y hy
          exact List.find?_eq_none.mp hq y (List.mem_cons_of_mem x hy)
        rw [List.find?_cons_of_neg _ (by simp [hqx])]
        exact ih hu (Or.inl hxs) 
      · by_cases hqx : q x = true
        · have hux : u = x := by
            rw [List.find?_cons_of_pos _ hqx] at hq
            exact (Option.some.inj hq).symm
          have hcu := List.find?_some hu
          rw [hux] at hcu
          simp only [decide_eq_true_eq] at hcu
          exact absurd hcu hP
        · rw [List.find?_cons_of_neg _ hqx] at hq
          rw [List.find?_cons_of_neg _ hqx]
          exact ih hu (Or.inr hq)

theorem foldl_preserve {β : Type} (proj : Store → β) (step : Store → Team → Store)
    (hstep : ∀ s t, proj (step s t) = proj s) (ts : List Team) (s : Store) :
    proj (ts.foldl step s) = proj s := by
  induction ts generalizing s with
  | nil => rfl
  | cons t ts ih => rw [List.foldl_cons, ih, hstep]

/-- Key fields of a redirect row are untouched by a `toUrl` overwrite. -/
theorem redirectKeyIs_toUrl (r : Redirect) (ty : RedirectType) (f : String) (o : Nat) (v : String) :
    redirectKeyIs { r with toUrl := v } ty f o = redirectKeyIs r ty f o := by
  simp [redirectKeyIs]

/-- The store contains a redirect row for the key, and every row carrying the
key points at `v`. -/
def redirectSet (s : Store) (ty : RedirectType) (f : String) (orgId : Nat) (v : String) : Prop :=
  s.redirects.any (fun r => redirectKeyIs r ty f orgId) = true ∧
  ∀ r ∈ s.redirects, redirectKeyIs r ty f orgId = true → r.toUrl = v

/-- No redirect row for the key exists. -/
def redirectAbsent (s : Store) (ty : RedirectType) (f : String) (orgId : Nat) : Prop :=
  s.redirects.any (fun r => redirectKeyIs r ty f orgId) = false

theorem upsertRedirect_establishes (s : Store) (ty : RedirectType) (f : String) (o : Nat)
    (v : String) : redirectSet (upsertRedirect s ty f o v) ty f o v := by
  unfold redirectSet upsertRedirect
  by_cases h : s.redirects.any (fun r => redirectKeyIs r ty f o) = true
  · rw [if_pos h]
    constructor
    · rw [List.any_map]
      have hc : ((fun r => redirectKeyIs r ty f o) ∘ fun r =>
          if redirectKeyIs r ty f o then { r with toUrl := v } else r)
          = (fun r => redirectKeyIs r ty f o) := by
        funext r
        by_cases hk : redirectKeyIs r ty f o = true
        · simp [hk, redirectKeyIs_toUrl]
        · simp only [Function.comp_apply]
          rw [if_neg (by simpa using hk)]
      rw [hc]
      exact h
    · intro r' hr'
      rw [List.mem_map] at hr'
      obtain ⟨r, hr, hrr'⟩ := hr'
      by_cases hk : redirectKeyIs r ty f o = true
      · rw [if_pos hk] at hrr'
        intro _
        rw [← hrr']
      · rw [if_neg (by simpa using hk)] at hrr'
        intro hk'
        rw [← hrr'] at hk'
        exact absurd hk' (by simpa using hk)
  · rw [if_neg h]
    constructor
    · rw [List.any_append]
      have : redirectKeyIs ⟨ty, f, o, v⟩ ty f o = true := by simp [redirectKeyIs]
      simp [this]
    · intro r hr
      rw [List.mem_append] at hr
      rcases hr with hr | hr
      · intro hk
        have := (List.any_eq_false.mp (by simpa using h)) r hr
        exact absurd hk this
      · intro _
        simp only [List.mem_singleton] at hr
        rw [hr]

theorem upsertRedirect_preserves (s : Store) {ty : RedirectType} {f : String} {o : Nat}
    {v : String} (h : redirectSet s ty f o v) (ty' : RedirectType) (f' : String) (o' : Nat)
    (v' : String) (hcase : (ty = ty' ∧ f = f' ∧ o = o') → v = v') :
    redirectSet (upsertRedirect s ty' f' o' v') ty f o v := by
  by_cases hkeq : ty = ty' ∧ f = f' ∧ o = o'
  · obtain ⟨h1, h2, h3⟩ := hkeq
    subst h1; subst h2; subst h3
    rw [← hcase ⟨rfl, rfl, rfl⟩]
    exact upsertRedirect_establishes s ty f o v
  · have hkdisj : ∀ r : Redirect, redirectKeyIs r ty f o = true →
        redirectKeyIs r ty' f' o' = true → False := by
      intro r hk hk'
      simp only [redirectKeyIs, decide_eq_true_eq] at hk hk'
      exact hkeq ⟨hk.1 ▸ hk'.1.symm ▸ rfl, by rw [← hk.2.1, hk'.2.1], by rw [← hk.2.2, hk'.2.2]⟩
    unfold redirectSet upsertRedirect
    by_cases hex : s.redirects.any (fun r => redirectKeyIs r ty' f' o' ) = true
    · rw [if_pos hex]
      constructor
      · rw [List.any_map]
        have hc : ((fun r => redirectKeyIs r ty f o) ∘ fun r =>
            if redirectKeyIs r ty' f' o' then { r with toUrl := v' } else r)
            = (fun r => redirectKeyIs r ty f o) := by
          funext r
          by_cases hk : redirectKeyIs r ty' f' o' = true
          · simp [hk, redirectKeyIs_toUrl]
          · simp only [Function.comp_apply]
            rw [if_neg (by simpa using hk)]
        rw [hc]
        exact h.1
      · intro r' hr'
        rw [List.mem_map] at hr'
        obtain ⟨r, hr, hrr'⟩ := hr'
        by_cases hk : redirectKeyIs r ty' f' o' = true
        · rw [if_pos hk] at hrr'
          intro hk'
          rw [← hrr'] at hk'
          rw [redirectKeyIs_toUrl] at hk'
          exact absurd hk (fun hx => hkdisj r hk' hx)
        · rw [if_neg (by simpa using hk)] at hrr'
          intro hk'
          rw [← hrr'] at hk'
          rw [← hrr']
          exact h.2 r hr hk'
    · rw [if_neg hex]
      constructor
      · rw [List.any_append]
        simp only [List.any_cons, List.any_nil, Bool.or_false]
        have hnew : redirectKeyIs ⟨ty', f', o', v'⟩ ty f o = false := by
          by_contra hc
          rw [Bool.not_eq_false] at hc
          have : redirectKeyIs ⟨ty', f', o', v'⟩ ty' f' o' = true := by simp [redirectKeyIs]
          exact hkdisj _ hc this
        rw [hnew, h.1]
        rfl
      · intro r hr
        rw [List.mem_append] at hr
        rcases hr with hr | hr
        · exact h.2 r hr
        · simp only [List.mem_singleton] at hr
          intro hk
          rw [hr] at hk
          have : redirectKeyIs ⟨ty', f', o', v'⟩ ty' f' o' = true := by simp [redirectKeyIs]
          exact absurd (hkdisj _ hk this) (fun x => x)

theorem upsertRedirect_noop (s : Store) (ty : RedirectType) (f : String) (o : Nat) (v : String)
    (h : redirectSet s ty f o v) : upsertRedirect s ty f o v = s := by
  unfold upsertRedirect
  rw [if_pos h.1]
  have hmap : s.redirects.map (fun r =>
      if redirectKeyIs r ty f o then { r with toUrl := v } else r) = s.redirects := by
    apply map_self
    intro r hr
    by_cases hk : redirectKeyIs r ty f o = true
    · rw [if_pos hk]
      have := h.2 r hr hk
      cases r
      simp_all
    · rw [if_neg (by simpa using hk)]
  rw [hmap]

theorem deleteRedirects_absent (s : Store) (ty : RedirectType) (f : String) (o : Nat) :
    redirectAbsent (deleteRedirects s ty f o) ty f o := by
  unfold redirectAbsent deleteRedirects
  rw [List.any_eq_false]
  intro r hr
  have := (List.mem_filter.mp hr).2
  simp only [Bool.not_eq_true'] at this
  simp [this]

theorem deleteRedirects_preserves_absent (s : Store) {ty : RedirectType} {f : String} {o : Nat}
    (h : redirectAbsent s ty f o) (ty' : RedirectType) (f' : String) (o' : Nat) :
    redirectAbsent (deleteRedirects s ty' f' o') ty f o :=
  any_filter_false _ _ _ h

/-- Key fields of a membership row are untouched by a role/accepted update. -/
theorem membershipKeyIs_update (m : MembershipRow) (uid tid : Nat) (r : MembershipRole)
    (a : Bool) : membershipKeyIs { m with role := r, accepted := a } uid tid
      = membershipKeyIs m uid tid := by
  simp [membershipKeyIs]

/-- The store contains a membership row for the key, and every row carrying
the key has the given role and accepted flag. -/
def membershipSet (s : Store) (uid tid : Nat) (role : MembershipRole) (acc : Bool) : Prop :=
  s.memberships.any (fun m => membershipKeyIs m uid tid) = true ∧
  ∀ m ∈ s.memberships, membershipKeyIs m uid tid = true → m.role = role ∧ m.accepted = acc

theorem upsertMembership_establishes (s : Store) (uid tid : Nat) (role : MembershipRole)
    (acc : Bool) : membershipSet (upsertMembership s uid tid role acc) uid tid role acc := by
  unfold membershipSet upsertMembership
  by_cases h : s.memberships.any (fun m => membershipKeyIs m uid tid) = true
  · rw [if_pos h]
    constructor
    · rw [List.any_map]
      have hc : ((fun m => membershipKeyIs m uid tid) ∘ fun m =>
          if membershipKeyIs m uid tid then { m with role := role, accepted := acc } else m)
          = (fun m => membershipKeyIs m uid tid) := by
        funext m
        by_cases hk : membershipKeyIs m uid tid = true
        · simp [hk, membershipKeyIs_update]
        · simp only [Function.comp_apply]
          rw [if_neg (by simpa using hk)]
      rw [hc]
      exact h
    · intro m' hm'
      rw [List.mem_map] at hm'
      obtain ⟨m, hm, hmm'⟩ := hm'
      by_cases hk : membershipKeyIs m uid tid = true
      · rw [if_pos hk] at hmm'
        intro _
        rw [← hmm']
        exact ⟨rfl, rfl⟩
      · rw [if_neg (by simpa using hk)] at hmm'
        intro hk'
        rw [← hmm'] at hk'
        exact absurd hk' (by simpa using hk)
  · rw [if_neg h]
    constructor
    · rw [List.any_append]
      have : membershipKeyIs ⟨uid, tid, role, acc⟩ uid tid = true := by simp [membershipKeyIs]
      simp [this]
    · intro m hm
      rw [List.mem_append] at hm
      rcases hm with hm | hm
      · intro hk
        exact absurd hk ((List.any_eq_false.mp (by simpa using h)) m hm)
      · intro _
        simp only [List.mem_singleton] at hm
        rw [hm]
        exact ⟨rfl, rfl⟩

theorem upsertMembership_noop (s : Store) (uid tid : Nat) (role : MembershipRole) (acc : Bool)
    (h : membershipSet s uid tid role acc) : upsertMembership s uid tid role acc = s := by
  unfold upsertMembership
  rw [if_pos h.1]
  have hmap : s.memberships.map (fun m =>
      if membershipKeyIs m uid tid then { m with role := role, accepted := acc } else m)
      = s.memberships := by
    apply map_self
    intro m hm
    by_cases hk : membershipKeyIs m uid tid = true
    · rw [if_pos hk]
      have := h.2 m hm hk
      cases m
      simp_all
    · rw [if_neg (by simpa using hk)]
  rw [hmap]

/-- Effect of the membership upsert on the user's membership team-id list:
the target team id joins the list, everything else is unchanged. -/
theorem userMembershipTeamIds_upsert (s : Store) (uid tid : Nat) (role : MembershipRole)
    (acc : Bool) (x : Nat) :
    x ∈ userMembershipTeamIds (upsertMembership s uid tid role acc) uid ↔
      x ∈ userMembershipTeamIds s uid ∨ x = tid := by
  unfold userMembershipTeamIds userMemberships upsertMembership
  by_cases h : s.memberships.any (fun m => membershipKeyIs m uid tid) = true
  · rw [if_pos h]
    have htid : tid ∈ (s.memberships.filter (fun m => decide (m.userId = uid))).map
        (fun m => m.teamId) := by
      rw [List.any_eq_true] at h
      obtain ⟨m, hm, hk⟩ := h
      simp only [membershipKeyIs, decide_eq_true_eq] at hk
      rw [List.mem_map]
      exact ⟨m, List.mem_filter.mpr ⟨hm, by simp [hk.1]⟩, hk.2⟩
    have hfc : (s.memberships.map (fun m =>
        if membershipKeyIs m uid tid then { m with role := role, accepted := acc } else m)).filter
          (fun m => decide (m.userId = uid))
        = (s.memberships.filter (fun m => decide (m.userId = uid))).map (fun m =>
            if membershipKeyIs m uid tid then { m with role := role, accepted := acc } else m) := by
      apply filter_map_comm
      intro m
      by_cases hk : membershipKeyIs m uid tid = true
      · rw [if_pos hk]
      · rw [if_neg (by simpa using hk)]
    simp only [hfc, List.map_map, List.mem_map, Function.comp_apply]
    constructor
    · rintro ⟨m, hm, hmx⟩
      left
      refine ⟨m, hm, ?_⟩
      by_cases hk : membershipKeyIs m uid tid = true
      · rw [if_pos hk] at hmx
        exact hmx
      · rw [if_neg (by simpa using hk)] at hmx
        exact hmx
    · intro hx
      rcases hx with ⟨m, hm, hmx⟩ | hx
      · refine ⟨m, hm, ?_⟩
        by_cases hk : membershipKeyIs m uid tid = true
        · rw [if_pos hk]
          exact hmx
        · rw [if_neg (by simpa using hk)]
          exact hmx
      · rw [List.mem_map] at htid
        obtain ⟨m, hm, hmx⟩ := htid
        refine ⟨m, hm, ?_⟩
        rw [hx, ← hmx]
        by_cases hk2 : membershipKeyIs m uid m.teamId = true
        · rw [if_pos hk2]
        · rw [if_neg (by simpa using hk2)]
  · rw [if_neg h]
    rw [List.filter_append, List.map_append]
    have hnew : (List.filter (fun m => decide (m.userId = uid))
        [(⟨uid, tid, role, acc⟩ : MembershipRow)]) = [⟨uid, tid, role, acc⟩] := by
      simp [List.filter_cons]
    rw [hnew]
    simp only [List.mem_append, List.map_cons, List.map_nil, List.mem_singleton]

/-- After the upsert the user has at least the upserted membership row. -/
theorem userMemberships_upsert_ne_nil (s : Store) (uid tid : Nat) (role : MembershipRole)
    (acc : Bool) : (userMemberships (upsertMembership s uid tid role acc) uid).length ≠ 0 := by
  intro hlen
  rw [List.length_eq_zero] at hlen
  have : tid ∈ userMembershipTeamIds (upsertMembership s uid tid role acc) uid :=
    (userMembershipTeamIds_upsert s uid tid role acc tid).mpr (Or.inr rfl)
  unfold userMembershipTeamIds at this
  rw [hlen] at this
  simp at this

theorem nonOrgTeamsOf_eq_filter (teams : List Team) (tids : List Nat) :
    nonOrgTeamsOf teams tids
      = teams.filter (fun t => (!t.metadata.isOrganization) && decide (t.id ∈ tids)) := by
  unfold nonOrgTeamsOf
  rw [List.filter_filter]

theorem nonOrgTeamsOf_map (teams : List Team) (tids : List Nat) (f : Team → Team)
    (hid : ∀ t, (f t).id = t.id) (hmeta : ∀ t, (f t).metadata = t.metadata) :
    nonOrgTeamsOf (teams.map f) tids = (nonOrgTeamsOf teams tids).map f := by
  unfold nonOrgTeamsOf
  rw [filter_map_comm _ _ _ (fun t => by rw [hid t]),
      filter_map_comm _ _ _ (fun t => by rw [hmeta t])]

theorem nonOrgTeamsOf_congr_tids (teams : List Team) (tids tids' : List Nat)
    (h : ∀ t ∈ teams, t.metadata.isOrganization = false → (t.id ∈ tids ↔ t.id ∈ tids')) :
    nonOrgTeamsOf teams tids = nonOrgTeamsOf teams tids' := by
  rw [nonOrgTeamsOf_eq_filter, nonOrgTeamsOf_eq_filter]
  apply List.filter_congr
  intro t ht
  by_cases ho : t.metadata.isOrganization
  · simp [ho]
  · have ho' : t.metadata.isOrganization = false := by simpa using ho
    simp only [ho', Bool.not_false, Bool.true_and]
    exact decide_eq_decide.mpr (h t ht ho')

theorem mem_nonOrgTeamsOf (teams : List Team) (tids : List Nat) (t : Team) :
    t ∈ nonOrgTeamsOf teams tids ↔
      t ∈ teams ∧ t.id ∈ tids ∧ t.metadata.isOrganization = false := by
  rw [nonOrgTeamsOf_eq_filter]
  rw [List.mem_filter]
  constructor
  · rintro ⟨h1, h2⟩
    simp only [Bool.and_eq_true, Bool.not_eq_true', decide_eq_true_eq] at h2
    exact ⟨h1, h2.2, h2.1⟩
  · rintro ⟨h1, h2, h3⟩
    refine ⟨h1, ?_⟩
    simp [h2, h3]

theorem userMembershipTeamIds_sub (s : Store) (uid x : Nat) (hx : x ∈ userMembershipTeamIds s uid) :
    ∃ m ∈ s.memberships, m.userId = uid ∧ m.teamId = x := by
  unfold userMembershipTeamIds userMemberships at hx
  rw [List.mem_map] at hx
  obtain ⟨m, hm, hmx⟩ := hx
  rw [List.mem_filter] at hm
  exact ⟨m, hm.1, by simpa using hm.2, hmx⟩

theorem mem_userMembershipTeamIds (s : Store) (uid : Nat) (m : MembershipRow)
    (hm : m ∈ s.memberships) (huid : m.userId = uid) :
    m.teamId ∈ userMembershipTeamIds s uid := by
  unfold userMembershipTeamIds userMemberships
  rw [List.mem_map]
  exact ⟨m, List.mem_filter.mpr ⟨hm, by simp [huid]⟩, rfl⟩

/-! Field-preservation facts for the primitives. -/

theorem upsertRedirect_users (s : Store) (ty : RedirectType) (f : String) (o : Nat) (v : String) :
    (upsertRedirect s ty f o v).users = s.users := by
  unfold upsertRedirect
  split <;> rfl

theorem upsertRedirect_teams (s : Store) (ty : RedirectType) (f : String) (o : Nat) (v : String) :
    (upsertRedirect s ty f o v).teams = s.teams := by
  unfold upsertRedirect
  split <;> rfl

theorem upsertRedirect_memberships (s : Store) (ty : RedirectType) (f : String) (o : Nat)
    (v : String) : (upsertRedirect s ty f o v).memberships = s.memberships := by
  unfold upsertRedirect
  split <;> rfl

theorem upsertMembership_users (s : Store) (uid tid : Nat) (role : MembershipRole) (acc : Bool) :
    (upsertMembership s uid tid role acc).users = s.users := by
  unfold upsertMembership
  split <;> rfl

theorem upsertMembership_teams (s : Store) (uid tid : Nat) (role : MembershipRole) (acc : Bool) :
    (upsertMembership s uid tid role acc).teams = s.teams := by
  unfold upsertMembership
  split <;> rfl

theorem upsertMembership_redirects (s : Store) (uid tid : Nat) (role : MembershipRole)
    (acc : Bool) : (upsertMembership s uid tid role acc).redirects = s.redirects := by
  unfold upsertMembership
  split <;> rfl

theorem OrgMigration.updateTeams_fst (s : Store) (uid g : Nat) :
    (OrgMigration.updateTeams s uid g).1 = nonOrgMembershipTeams s uid := by
  unfold OrgMigration.updateTeams
  split <;> rfl

theorem nonOrgMembershipTeamIds_of_empty (s : Store) (uid : Nat)
    (h : userMemberships s uid = []) : nonOrgMembershipTeamIds s uid = [] := by
  unfold nonOrgMembershipTeamIds nonOrgMembershipTeams userMembershipTeamIds
  rw [h]
  rw [nonOrgTeamsOf_eq_filter]
  have : ∀ t ∈ s.teams, ((!t.metadata.isOrganization) && decide (t.id ∈ ([] : List MembershipRow).map (fun m => m.teamId))) = false := by
    intro t _
    simp
  rw [List.filter_eq_nil_iff.mpr (fun t ht => by simp)]
  rfl

theorem OrgMigration.updateTeams_snd_teams (s : Store) (uid g : Nat) :
    (OrgMigration.updateTeams s uid g).2.teams
      = s.teams.map (fun t =>
          if t.id ∈ nonOrgMembershipTeamIds s uid then { t with parentId := some g } else t) := by
  unfold OrgMigration.updateTeams
  split
  · rfl
  · rename_i hlen
    have hempty : userMemberships s uid = [] := by
      rw [← List.length_eq_zero]
      omega
    rw [nonOrgMembershipTeamIds_of_empty s uid hempty]
    show s.teams = s.teams.map _
    refine Eq.symm (map_self _ _ ?_)
    intro t _
    rw [if_neg (List.not_mem_nil t.id)]

theorem OrgMigration.updateTeams_snd_users (s : Store) (uid g : Nat) :
    (OrgMigration.updateTeams s uid g).2.users = s.users := by
  unfold OrgMigration.updateTeams
  split <;> rfl

theorem OrgMigration.updateTeams_snd_memberships (s : Store) (uid g : Nat) :
    (OrgMigration.updateTeams s uid g).2.memberships = s.memberships := by
  unfold OrgMigration.updateTeams
  split <;> rfl

theorem OrgMigration.updateTeams_snd_redirects (s : Store) (uid g : Nat) :
    (OrgMigration.updateTeams s uid g).2.redirects = s.redirects := by
  unfold OrgMigration.updateTeams
  split <;> rfl

theorem RemoveUserFromOrg.revUpdateTeams_fst (s : Store) (uid : Nat) :
    (RemoveUserFromOrg.updateTeams s uid).1 = nonOrgMembershipTeams s uid := by
  unfold RemoveUserFromOrg.updateTeams
  split <;> rfl

theorem RemoveUserFromOrg.revUpdateTeams_snd_teams (s : Store) (uid : Nat) :
    (RemoveUserFromOrg.updateTeams s uid).2.teams
      = s.teams.map (fun t =>
          if t.id ∈ nonOrgMembershipTeamIds s uid then { t with parentId := none } else t) := by
  unfold RemoveUserFromOrg.updateTeams
  split
  · rfl
  · rename_i hlen
    have hempty : userMemberships s uid = [] := by
      rw [← List.length_eq_zero]
      omega
    rw [nonOrgMembershipTeamIds_of_empty s uid hempty]
    show s.teams = s.teams.map _
    refine Eq.symm (map_self _ _ ?_)
    intro t _
    rw [if_neg (List.not_mem_nil t.id)]

theorem RemoveUserFromOrg.revUpdateTeams_snd_users (s : Store) (uid : Nat) :
    (RemoveUserFromOrg.updateTeams s uid).2.users = s.users := by
  unfold RemoveUserFromOrg.updateTeams
  split <;> rfl

theorem RemoveUserFromOrg.revUpdateTeams_snd_memberships (s : Store) (uid : Nat) :
    (RemoveUserFromOrg.updateTeams s uid).2.memberships = s.memberships := by
  unfold RemoveUserFromOrg.updateTeams
  split <;> rfl

theorem RemoveUserFromOrg.revUpdateTeams_snd_redirects (s : Store) (uid : Nat) :
    (RemoveUserFromOrg.updateTeams s uid).2.redirects = s.redirects := by
  unfold RemoveUserFromOrg.updateTeams
  split <;> rfl

theorem OrgMigration.updateUser_teams (s : Store) (u : User) (g : Nat) (tun nn : String)
    (now : Nat) : (OrgMigration.updateUser s u g tun nn now).teams = s.teams := rfl

theorem OrgMigration.updateUser_memberships (s : Store) (u : User) (g : Nat) (tun nn : String)
    (now : Nat) : (OrgMigration.updateUser s u g tun nn now).memberships = s.memberships := rfl

theorem OrgMigration.updateUser_redirects (s : Store) (u : User) (g : Nat) (tun nn : String)
    (now : Nat) : (OrgMigration.updateUser s u g tun nn now).redirects = s.redirects := rfl

theorem OrgMigration.setOrgSlug_users (s : Store) (g : Nat) (sl : String) :
    (OrgMigration.setOrgSlug s g sl).users = s.users := rfl

theorem OrgMigration.setOrgSlug_memberships (s : Store) (g : Nat) (sl : String) :
    (OrgMigration.setOrgSlug s g sl).memberships = s.memberships := rfl

theorem OrgMigration.setOrgSlug_redirects (s : Store) (g : Nat) (sl : String) :
    (OrgMigration.setOrgSlug s g sl).redirects = s.redirects := rfl

theorem RemoveUserFromOrg.revUpdateUser_teams (s : Store) (uid : Nat) (nn : String) (now : Nat) :
    (RemoveUserFromOrg.updateUser s uid nn now).teams = s.teams := rfl

theorem RemoveUserFromOrg.revUpdateUser_memberships (s : Store) (uid : Nat) (nn : String)
    (now : Nat) : (RemoveUserFromOrg.updateUser s uid nn now).memberships = s.memberships := rfl

theorem RemoveUserFromOrg.revUpdateUser_redirects (s : Store) (uid : Nat) (nn : String)
    (now : Nat) : (RemoveUserFromOrg.updateUser s uid nn now).redirects = s.redirects := rfl

/-- Any store projection preserved by `upsertRedirect` is preserved by the
whole redirect-maintenance step of the user migration. -/
theorem OrgMigration.addRedirect_proj {β : Type} (proj : Store → β)
    (hpr : ∀ s ty f o v, proj (upsertRedirect s ty f o v) = proj s)
    (s : Store) (nn : Option String) (org : Team) (tun : String) (ts : List Team) :
    proj (OrgMigration.addRedirect s nn org tun ts) = proj s := by
  unfold OrgMigration.addRedirect
  cases h : truthyStr nn with
  | none => rfl
  | some n =>
    cases h2 : truthyStr (orElseStr org.slug org.metadata.requestedSlug) with
    | none => rfl
    | some os =>
      refine Eq.trans (foldl_preserve proj _ ?_ ts _) (hpr _ _ _ _ _)
      intro s' t
      unfold teamRedirectUpsert
      cases h3 : truthyStr t.slug with
      | none => rfl
      | some sl => exact hpr _ _ _ _ _

/-- Any store projection preserved by `deleteRedirects` is preserved by the
redirect-removal step of the revert flow. -/
theorem RemoveUserFromOrg.removeRedirect_proj {β : Type} (proj : Store → β)
    (hpr : ∀ s ty f o, proj (deleteRedirects s ty f o) = proj s)
    (s : Store) (nn : Option String) (ts : List Team) :
    proj (RemoveUserFromOrg.removeRedirect s nn ts) = proj s := by
  unfold RemoveUserFromOrg.removeRedirect
  cases h : truthyStr nn with
  | none => rfl
  | some n =>
    refine Eq.trans (foldl_preserve proj _ ?_ ts _) (hpr _ _ _ _)
    intro s' t
    unfold RemoveUserFromOrg.teamRedirectDelete
    cases h3 : truthyStr t.slug with
    | none => rfl
    | some sl => exact hpr _ _ _ _

/-! ## Concrete records shared by counterexamples and witnesses -/

/-- An organization team: id 10, slug `acme`. -/
def exOrgTeam : Team := ⟨10, some "acme", none, ⟨true, none, none⟩⟩

/-- A plain (non-organization) team: id 1. -/
def exPlainTeam : Team := ⟨1, some "plain", none, ⟨false, none, none⟩⟩

/-- A standalone user: id 1, username `alice`, no provenance. -/
def exAlice : User := ⟨1, some "alice", "alice@acme.com", none, ⟨none⟩⟩

/-- `alice` after an earlier migration into org 10 (original handle `al`). -/
def exAliceInOrg : User := ⟨1, some "alice", "alice@acme.com", some 10, ⟨some ⟨some "al", none, none, some 1⟩⟩⟩

/-! ## Claim C1 -/

def c1Store : Store := ⟨[], [exPlainTeam, ⟨2, some "t2", none, ⟨false, none, none⟩⟩], [], []⟩

/-- C1 counterexample: `moveTeamToOrg` with `targetOrgId = 1` designating an
existing team whose `metadata.isOrganization` is false fails as claimed, but
does NOT leave every record unchanged: team 2 has already been reparented to
the bogus target before the `isOrganization` check runs. -/
theorem c1_counterexample :
    MoveTeamToOrg.moveTeamToOrg 1 2 false 0 c1Store
        = RunResult.err (MigErr.plain ErrTag.notAnOrg)
            ⟨[], [exPlainTeam, ⟨2, some "t2", some 1, ⟨false, none, none⟩⟩], [], []⟩ ∧
      (⟨[], [exPlainTeam, ⟨2, some "t2", some 1, ⟨false, none, none⟩⟩], [], []⟩ : Store) ≠ c1Store := by
  constructor
  · rfl
  · decide

/-- C1 (amended): `migrateUserToOrg` issues no store mutation before the
target organization is verified to carry the `isOrganization` tag — when the
target is a plain team it fails leaving the store untouched; `moveTeamToOrg`,
however, reparents the moved team *before* that verification, so the same
failure leaves the moved team's `parentId` pointing at the plain team. -/
theorem c1_amended
    (a : OrgMigration.MigrateUserArgs) (now : Nat) (s : Store) (team : Team)
    (targetOrgId teamId now2 : Nat) (s2 : Store) (org tm : Team) (mv : Bool)
    (hassert : OrgMigration.assertUserIdOrUserName a.userId a.userName = none)
    (hfind : findTeamById s a.targetOrgId = some team)
    (horg : team.metadata.isOrganization = false)
    (horg2 : findTeamById s2 targetOrgId = some org)
    (horgflag : org.metadata.isOrganization = false)
    (htm : findTeamById s2 teamId = some tm)
    (hpar : tm.parentId ≠ some targetOrgId) :
    OrgMigration.migrateUserToOrg a now s = RunResult.err (MigErr.plain ErrTag.notAnOrg) s ∧
    MoveTeamToOrg.moveTeamToOrg targetOrgId teamId mv now2 s2
      = RunResult.err (MigErr.plain ErrTag.notAnOrg)
          { s2 with teams := s2.teams.map (fun t =>
              if t.id = teamId then { t with parentId := some targetOrgId } else t) } := by
  constructor
  · unfold OrgMigration.migrateUserToOrg OrgMigration.getTeamOrThrowError
    rw [hassert, hfind]
    simp [horg]
  · unfold MoveTeamToOrg.moveTeamToOrg MoveTeamToOrg.getTeamOrThrowError MoveTeamToOrg.updateTeam
    rw [horg2, htm]
    dsimp only
    rw [if_neg hpar]
    simp [horgflag]

/-- C1 witness for the amended theorem at a concrete instance. -/
theorem c1_witness :
    OrgMigration.migrateUserToOrg ⟨some 7, none, 1, some "x", .MEMBER, true⟩ 0 c1Store
        = RunResult.err (MigErr.plain ErrTag.notAnOrg) c1Store ∧
      MoveTeamToOrg.moveTeamToOrg 1 2 false 0 c1Store
        = RunResult.err (MigErr.plain ErrTag.notAnOrg)
            { c1Store with teams := c1Store.teams.map (fun t =>
                if t.id = 2 then { t with parentId := some 1 } else t) } :=
  c1_amended ⟨some 7, none, 1, some "x", .MEMBER, true⟩ 0 c1Store exPlainTeam
    1 2 0 c1Store exPlainTeam ⟨2, some "t2", none, ⟨false, none, none⟩⟩ false
    (by decide) (by decide) (by decide) (by decide) (by decide) (by decide) (by decide)

/-- Reduction of `migrateUserToOrg` designated by `userId`, up to the
username-collision check, given that the preliminary checks pass. -/
theorem OrgMigration.migrate_reduce_byId
    (a : MigrateUserArgs) (now : Nat) (s : Store) (team : Team) (u : User) (uid : Nat)
    (hid : a.userId = some uid) (hname : a.userName = none) (huid0 : uid ≠ 0)
    (hteam : findTeamById s a.targetOrgId = some team)
    (horg : team.metadata.isOrganization = true)
    (hfind : findUserById s uid = some u)
    (hok : u.organizationId = none ∨ u.organizationId = some a.targetOrgId) :
    migrateUserToOrg a now s =
      (match usernameCollision s (resolveTargetOrgUsername a.targetOrgUsername u team)
          a.targetOrgId a.userId with
       | some e => RunResult.err e s
       | none =>
         match truthyStr (nonOrgUserNameOf u) with
         | none => RunResult.err (MigErr.http 400 ErrTag.noNonOrgUsername) s
         | some nonOrgUserName =>
           applyMigration s u team a.targetOrgId
             (resolveTargetOrgUsername a.targetOrgUsername u team) nonOrgUserName
             a.targetOrgRole a.targetOrgMembershipAccepted now) := by
  have hassert : assertUserIdOrUserName a.userId a.userName = none := by
    unfold assertUserIdOrUserName
    rw [hid, hname]
    simp [natTruthy, strTruthy, huid0]
  have huniq : getUniqueUserThatDoesntBelongToOrg a.userName a.userId a.targetOrgId s
      = Except.ok (some u) := by
    unfold getUniqueUserThatDoesntBelongToOrg
    rw [hname, hid]
    dsimp only [truthyStr]
    rw [hfind]
  have hassert2 : assertUserPartOfOtherOrg (some u) a.targetOrgId = Except.ok u := by
    unfold assertUserPartOfOtherOrg
    dsimp only
    rcases hok with hok | hok
    · rw [hok]
      simp [natTruthy]
    · rw [hok]
      simp [natTruthy]
  have hassert3 : assertUserPartOfOrgAndRemigrationAllowed u a.targetOrgId = none := by
    unfold assertUserPartOfOrgAndRemigrationAllowed
    rcases hok with hok | hok
    · rw [hok]
      simp [natTruthy]
    · rw [hok]
      simp [natTruthy]
  unfold migrateUserToOrg getTeamOrThrowError
  rw [hassert, hteam]
  dsimp only
  rw [horg, if_neg (show ¬((!true : Bool) = true) by simp)]
  rw [huniq]
  dsimp only
  rw [hassert2]
  dsimp only
  rw [hassert3]


/-- The slug back-fill can only raise the missing-org-slug error. -/
theorem OrgMigration.setOrgSlugIfNotSet_error (slug req : Option String) (g : Nat) (s : Store)
    (e : MigErr) (h : setOrgSlugIfNotSet slug req g s = Except.error e) :
    e = MigErr.http 400 ErrTag.orgHasNoSlug := by
  unfold setOrgSlugIfNotSet at h
  by_cases ht : strTruthy slug = true
  · rw [if_pos ht] at h
    exact Except.noConfusion h
  · rw [if_neg ht] at h
    rcases hreq : truthyStr req with _ | r
    · rw [hreq] at h
      exact (Except.error.inj h).symm
    · rw [hreq] at h
      exact Except.noConfusion h

/-- The mutation tail of the migration can only fail with the
missing-org-slug error. -/
theorem OrgMigration.applyMigration_err (s : Store) (u : User) (team : Team) (g : Nat)
    (tun nn : String) (role : MembershipRole) (acc : Bool) (now : Nat) (e : MigErr) (s' : Store)
    (h : applyMigration s u team g tun nn role acc now = RunResult.err e s') :
    e = MigErr.http 400 ErrTag.orgHasNoSlug := by
  unfold applyMigration at h
  dsimp only at h
  split at h
  · rename_i e2 hset
    exact (RunResult.err.inj h).1 ▸ setOrgSlugIfNotSet_error _ _ _ _ _ hset
  · exact RunResult.noConfusion h

/-! ## Claim C4 -/

def c4Store : Store := ⟨[exAliceInOrg], [exOrgTeam], [⟨1, 10, .MEMBER, true⟩], []⟩

/-- C4 counterexample: the only holder of `targetOrgUsername = "alice"` inside
org 10 is the candidate itself (user 1, resolved by `userName`), yet the
collision check fails the operation with the 400 username-conflict error,
because the check compares the holder's id against the `userId` *argument*,
which is absent under userName designation. -/
theorem c4_counterexample :
    OrgMigration.migrateUserToOrg ⟨none, some "alice", 10, some "alice", .MEMBER, true⟩ 7 c4Store
      = RunResult.err (MigErr.http 400 ErrTag.usernameTakenInOrg) c4Store := by
  rfl

/-- C4 (amended): when the user is designated by `userId`, the operation
fails with the 400 username-conflict error exactly when some user other than
the candidate holds `targetOrgUsername` inside `targetOrgId` (and the store
is then unchanged, the error carrying the input store); under `userName`
designation the check instead compares the holder against the absent
`userId` argument, so even the candidate itself triggers the conflict. -/
theorem c4_amended
    (a : OrgMigration.MigrateUserArgs) (now : Nat) (s : Store) (team : Team) (u : User)
    (uid : Nat) (tun : String)
    (hid : a.userId = some uid) (hname : a.userName = none) (huid0 : uid ≠ 0)
    (hteam : findTeamById s a.targetOrgId = some team)
    (horg : team.metadata.isOrganization = true)
    (hfind : findUserById s uid = some u)
    (hok : u.organizationId = none ∨ u.organizationId = some a.targetOrgId)
    (htun : a.targetOrgUsername = some tun) (htunne : tun.isEmpty = false)
    (huniq : ∀ w1 ∈ s.users, ∀ w2 ∈ s.users,
      w1.username = some tun → w1.organizationId = some a.targetOrgId →
      w2.username = some tun → w2.organizationId = some a.targetOrgId → w1 = w2) :
    (OrgMigration.migrateUserToOrg a now s
        = RunResult.err (MigErr.http 400 ErrTag.usernameTakenInOrg) s)
      ↔ (∃ w ∈ s.users, w.username = some tun ∧ w.organizationId = some a.targetOrgId
            ∧ w.id ≠ uid) := by
  have hres : OrgMigration.resolveTargetOrgUsername a.targetOrgUsername u team = tun := by
    unfold OrgMigration.resolveTargetOrgUsername
    rw [htun]
    dsimp only [truthyStr]
    rw [htunne]
    rfl
  have hred := OrgMigration.migrate_reduce_byId a now s team u uid hid hname huid0 hteam horg
    hfind hok
  rw [hres] at hred
  constructor
  · intro heq
    rw [hred] at heq
    rcases hcol : OrgMigration.usernameCollision s tun a.targetOrgId a.userId with _ | e
    · exfalso
      rw [hcol] at heq
      dsimp only at heq
      split at heq
      · exact absurd (RunResult.err.inj heq).1 (by decide)
      · have := OrgMigration.applyMigration_err _ _ _ _ _ _ _ _ _ _ _ heq
        exact absurd this (by decide)
    · unfold OrgMigration.usernameCollision at hcol
      rcases hfw : s.users.find? (fun w =>
          decide (w.username = some tun ∧ w.organizationId = some a.targetOrgId)) with _ | w
      · rw [hfw] at hcol
        exact Option.noConfusion hcol
      · rw [hfw] at hcol
        dsimp only at hcol
        by_cases hidw : some w.id ≠ a.userId
        · have hw := List.find?_some hfw
          simp only [decide_eq_true_eq] at hw
          refine ⟨w, List.mem_of_find?_eq_some hfw, hw.1, hw.2, ?_⟩
          rw [hid] at hidw
          intro hc
          exact hidw (by rw [hc])
        · rw [if_neg hidw] at hcol
          exact Option.noConfusion hcol
  · rintro ⟨w, hwmem, hwname, hworg, hwid⟩
    rw [hred]
    have hsome : (s.users.find? (fun w =>
        decide (w.username = some tun ∧ w.organizationId = some a.targetOrgId))).isSome := by
      rw [List.find?_isSome]
      exact ⟨w, hwmem, by simp [hwname, hworg]⟩
    rcases hfw : s.users.find? (fun w =>
        decide (w.username = some tun ∧ w.organizationId = some a.targetOrgId)) with _ | w'
    · rw [hfw] at hsome
      exact absurd hsome (by decide)
    · have hw' := List.find?_some hfw
      simp only [decide_eq_true_eq] at hw'
      have hww' : w' = w :=
        huniq w' (List.mem_of_find?_eq_some hfw) w hwmem hw'.1 hw'.2 hwname hworg
      have hcol : OrgMigration.usernameCollision s tun a.targetOrgId a.userId
          = some (MigErr.http 400 ErrTag.usernameTakenInOrg) := by
        unfold OrgMigration.usernameCollision
        rw [hfw]
        dsimp only
        rw [if_pos]
        rw [hid, hww']
        intro hc
        exact hwid (Option.some.inj hc)
      rw [hcol]

/-- C4 witness: a second standalone-vs-org user pair where the amended
equivalence detects the genuine conflict. -/
theorem c4_witness :
    OrgMigration.migrateUserToOrg
        ⟨some 2, none, 10, some "alice", .MEMBER, true⟩ 3
        ⟨[exAliceInOrg, ⟨2, some "bob", "bob@x.com", none, ⟨none⟩⟩], [exOrgTeam], [], []⟩
      = RunResult.err (MigErr.http 400 ErrTag.usernameTakenInOrg)
          ⟨[exAliceInOrg, ⟨2, some "bob", "bob@x.com", none, ⟨none⟩⟩], [exOrgTeam], [], []⟩ :=
  (c4_amended ⟨some 2, none, 10, some "alice", .MEMBER, true⟩ 3
      ⟨[exAliceInOrg, ⟨2, some "bob", "bob@x.com", none, ⟨none⟩⟩], [exOrgTeam], [], []⟩
      exOrgTeam ⟨2, some "bob", "bob@x.com", none, ⟨none⟩⟩ 2 "alice"
      rfl rfl (by decide) (by decide) rfl (by decide) (Or.inl rfl) rfl rfl
      (by decide)).mpr
    ⟨exAliceInOrg, by decide, rfl, rfl, by decide⟩

/-! ## Claim C5 -/

def c5Store : Store :=
  ⟨[exAliceInOrg], [⟨10, none, none, ⟨true, none, none⟩⟩], [⟨1, 10, .MEMBER, true⟩], []⟩

/-- C5 counterexample: user 1 already belongs to `targetOrgId = 10`, yet
`migrateUserToOrg` does not succeed — the org has neither slug nor
`requestedSlug`, so the run ends in the 400 missing-org-slug error (with the
user-refresh mutations already committed). -/
theorem c5_counterexample :
    OrgMigration.migrateUserToOrg ⟨some 1, none, 10, some "alice", .MEMBER, true⟩ 7 c5Store
      = RunResult.err (MigErr.http 400 ErrTag.orgHasNoSlug)
          ⟨[⟨1, some "alice", "alice@acme.com", some 10, ⟨some ⟨some "al", none, none, some 7⟩⟩⟩],
           [⟨10, none, none, ⟨true, none, none⟩⟩], [⟨1, 10, .MEMBER, true⟩], []⟩ := by
  rfl

/-- C5 (amended): a user already inside `targetOrgId` passes both
org-membership guards (the operation is a refresh, though it may still fail
later independent checks such as the slug back-fill), while a user belonging
to a different org makes `migrateUserToOrg` fail with a 400 conflict before
any record is mutated. -/
theorem c5_amended :
    (∀ (u : User) (targetOrgId : Nat), u.organizationId = some targetOrgId →
       OrgMigration.assertUserPartOfOtherOrg (some u) targetOrgId = Except.ok u ∧
       OrgMigration.assertUserPartOfOrgAndRemigrationAllowed u targetOrgId = none) ∧
    (∀ (a : OrgMigration.MigrateUserArgs) (now : Nat) (s : Store) (team : Team) (uid : Nat)
       (u : User), a.userId = some uid → a.userName = none → uid ≠ 0 →
       findTeamById s a.targetOrgId = some team → team.metadata.isOrganization = true →
       findUserById s uid = some u →
       natTruthy u.organizationId = true → u.organizationId ≠ some a.targetOrgId →
       OrgMigration.migrateUserToOrg a now s
         = RunResult.err (MigErr.http 400 ErrTag.userAlreadyPartOfOtherOrg) s) := by
  constructor
  · intro u targetOrgId horg
    constructor
    · unfold OrgMigration.assertUserPartOfOtherOrg
      dsimp only
      rw [horg]
      simp
    · unfold OrgMigration.assertUserPartOfOrgAndRemigrationAllowed
      rw [horg]
      simp
  · intro a now s team uid u hid hname huid0 hteam horg hfind hnat hne
    have hassert : OrgMigration.assertUserIdOrUserName a.userId a.userName = none := by
      unfold OrgMigration.assertUserIdOrUserName
      rw [hid, hname]
      simp [natTruthy, strTruthy, huid0]
    have huniq : OrgMigration.getUniqueUserThatDoesntBelongToOrg a.userName a.userId
        a.targetOrgId s = Except.ok (some u) := by
      unfold OrgMigration.getUniqueUserThatDoesntBelongToOrg
      rw [hname, hid]
      dsimp only [truthyStr]
      rw [hfind]
    have hassert2 : OrgMigration.assertUserPartOfOtherOrg (some u) a.targetOrgId
        = Except.error (MigErr.http 400 ErrTag.userAlreadyPartOfOtherOrg) := by
      unfold OrgMigration.assertUserPartOfOtherOrg
      dsimp only
      rw [if_pos]
      rw [hnat]
      simp [hne]
    unfold OrgMigration.migrateUserToOrg OrgMigration.getTeamOrThrowError
    rw [hassert, hteam]
    dsimp only
    rw [horg, if_neg (show ¬((!true : Bool) = true) by simp)]
    rw [huniq]
    dsimp only
    rw [hassert2]

/-- C5 witness: guard-passing for an in-org user, and the pre-mutation 400
failure for a user of a different org, at concrete stores. -/
theorem c5_witness :
    (OrgMigration.assertUserPartOfOtherOrg (some exAliceInOrg) 10 = Except.ok exAliceInOrg ∧
     OrgMigration.assertUserPartOfOrgAndRemigrationAllowed exAliceInOrg 10 = none) ∧
    OrgMigration.migrateUserToOrg ⟨some 1, none, 99, some "x", .MEMBER, true⟩ 0
        ⟨[exAliceInOrg], [⟨99, some "z", none, ⟨true, none, none⟩⟩], [], []⟩
      = RunResult.err (MigErr.http 400 ErrTag.userAlreadyPartOfOtherOrg)
          ⟨[exAliceInOrg], [⟨99, some "z", none, ⟨true, none, none⟩⟩], [], []⟩ :=
  ⟨c5_amended.1 exAliceInOrg 10 rfl,
   c5_amended.2 ⟨some 1, none, 99, some "x", .MEMBER, true⟩ 0
     ⟨[exAliceInOrg], [⟨99, some "z", none, ⟨true, none, none⟩⟩], [], []⟩
     ⟨99, some "z", none, ⟨true, none, none⟩⟩ 1 exAliceInOrg rfl rfl (by decide) (by decide)
     (by decide) rfl (by decide) (by decide)⟩

/-! ## Claim C6 -/

def c6Store : Store := ⟨[], [exOrgTeam, ⟨2, none, some 10, ⟨false, none, none⟩⟩], [], []⟩

/-- C6 counterexample: during forward migration, `moveTeamToOrg` of the
slug-less team 2 (already inside org 10) is a hard 400 failure, contradicting
the claim that a missing team slug is never a hard failure in the forward
direction. -/
theorem c6_counterexample :
    MoveTeamToOrg.moveTeamToOrg 10 2 false 0 c6Store
      = RunResult.err (MigErr.http 400 ErrTag.noSlugForTeam) c6Store := by
  rfl

/-- C6 (amended): in `migrateUserToOrg`'s redirect maintenance a slug-less
team is skipped (the step behaves as if such teams were filtered out and
never fails); in `moveTeamToOrg` a slug-less moved team is a hard 400
failure, exactly as in the reversal `removeTeamFromOrg`. -/
theorem c6_amended :
    (∀ (s : Store) (nn : Option String) (org : Team) (tun : String) (teams : List Team),
       OrgMigration.addRedirect s nn org tun teams
         = OrgMigration.addRedirect s nn org tun
             (teams.filter (fun t => (truthyStr t.slug).isSome))) ∧
    (∀ (targetOrgId teamId : Nat) (mv : Bool) (now : Nat) (s : Store) (org tm : Team),
       findTeamById s targetOrgId = some org → org.metadata.isOrganization = true →
       findTeamById s teamId = some tm → tm.slug = none →
       ∃ s1, MoveTeamToOrg.moveTeamToOrg targetOrgId teamId mv now s
         = RunResult.err (MigErr.http 400 ErrTag.noSlugForTeam) s1) ∧
    (∀ (targetOrgId teamId : Nat) (s : Store) (tm : Team),
       findTeamById s teamId = some tm → tm.slug = none →
       ∃ s1, RemoveTeamFromOrg.removeTeamFromOrg targetOrgId teamId s
         = RunResult.err (MigErr.http 400 ErrTag.noSlugForTeam) s1) := by
  refine ⟨?_, ?_, ?_⟩
  · intro s nn org tun teams
    unfold OrgMigration.addRedirect
    cases h : truthyStr nn with
    | none => rfl
    | some n =>
      cases h2 : truthyStr (orElseStr org.slug org.metadata.requestedSlug) with
      | none => rfl
      | some os =>
        refine Eq.symm (foldl_skip _ _ ?_ teams _)
        intro b t ht
        rcases h3 : truthyStr t.slug with _ | sl
        · unfold OrgMigration.teamRedirectUpsert
          rw [h3]
        · rw [h3] at ht
          exact absurd ht (by simp)
  · intro targetOrgId teamId mv now s org tm hforg horg htm hslug
    unfold MoveTeamToOrg.moveTeamToOrg MoveTeamToOrg.getTeamOrThrowError MoveTeamToOrg.updateTeam
      MoveTeamToOrg.addRedirect
    rw [hforg, htm]
    dsimp only
    by_cases hpar : tm.parentId = some targetOrgId
    · rw [if_pos hpar]
      dsimp only
      rw [horg, if_neg (show ¬((!true : Bool) = true) by simp)]
      rw [hslug]
      exact ⟨s, rfl⟩
    · rw [if_neg hpar]
      dsimp only
      rw [horg, if_neg (show ¬((!true : Bool) = true) by simp)]
      rw [hslug]
      exact ⟨_, rfl⟩
  · intro targetOrgId teamId s tm htm hslug
    unfold RemoveTeamFromOrg.removeTeamFromOrg RemoveTeamFromOrg.updateTeam
      RemoveTeamFromOrg.removeRedirect
    rw [htm]
    dsimp only
    by_cases hpar : tm.parentId ≠ some targetOrgId
    · rw [if_pos hpar]
      dsimp only
      rw [hslug]
      exact ⟨s, rfl⟩
    · rw [if_neg hpar]
      rw [hslug]
      rw [if_neg (by simp)]
      dsimp only
      exact ⟨_, rfl⟩

/-- C6 witness: the three amended statements at concrete stores. -/
theorem c6_witness :
    (OrgMigration.addRedirect c6Store (some "alice") exOrgTeam "alice"
         [⟨2, none, some 10, ⟨false, none, none⟩⟩]
       = OrgMigration.addRedirect c6Store (some "alice") exOrgTeam "alice"
           ([⟨2, none, some 10, ⟨false, none, none⟩⟩].filter
             (fun t => (truthyStr t.slug).isSome))) ∧
    (∃ s1, MoveTeamToOrg.moveTeamToOrg 10 2 false 0 c6Store
       = RunResult.err (MigErr.http 400 ErrTag.noSlugForTeam) s1) ∧
    (∃ s1, RemoveTeamFromOrg.removeTeamFromOrg 10 2
         ⟨[], [⟨2, none, some 10, ⟨false, none, none⟩⟩], [], []⟩
       = RunResult.err (MigErr.http 400 ErrTag.noSlugForTeam) s1) :=
  ⟨c6_amended.1 c6Store (some "alice") exOrgTeam "alice"
     [⟨2, none, some 10, ⟨false, none, none⟩⟩],
   c6_amended.2.1 10 2 false 0 c6Store exOrgTeam ⟨2, none, some 10, ⟨false, none, none⟩⟩
     (by decide) (by decide) (by decide) (by decide),
   c6_amended.2.2 10 2 ⟨[], [⟨2, none, some 10, ⟨false, none, none⟩⟩], [], []⟩
     ⟨2, none, some 10, ⟨false, none, none⟩⟩ (by decide) (by decide)⟩

/-! ## Claim C7 -/

def c7Store : Store :=
  ⟨[], [⟨2, some "x", none, ⟨false, none, none⟩⟩], [], [⟨.Team, "x", 0, "https://old.example/x"⟩]⟩

/-- C7 counterexample: team 2's `parentId` (null) differs from
`targetOrgId = 10`, yet `removeTeamFromOrg` is not a no-op — it still deletes
the team's redirect mapping. -/
theorem c7_counterexample :
    RemoveTeamFromOrg.removeTeamFromOrg 10 2 c7Store
        = RunResult.ok () ⟨[], [⟨2, some "x", none, ⟨false, none, none⟩⟩], [], []⟩ ∧
      c7Store.redirects ≠ ([] : List Redirect) :=
  ⟨rfl, by decide⟩

/-- C7 (amended): when the team's `parentId` differs from `targetOrgId`, the
team record and all user/team/membership state are left unchanged, but
`removeRedirect` still runs on the team's slug: with a falsy slug the whole
operation is a hard 400 failure (store unchanged), and with a truthy slug it
succeeds after deleting every redirect row keyed by the team slug. -/
theorem c7_amended (targetOrgId teamId : Nat) (s : Store) (tm : Team)
    (hfind : findTeamById s teamId = some tm) (hpar : tm.parentId ≠ some targetOrgId) :
    RemoveTeamFromOrg.removeTeamFromOrg targetOrgId teamId s
      = (match truthyStr tm.slug with
         | none => RunResult.err (MigErr.http 400 ErrTag.noSlugForTeam) s
         | some sl => RunResult.ok ()
             { s with redirects := s.redirects.filter (fun r => !redirectKeyIs r RedirectType.Team sl 0) }) := by
  unfold RemoveTeamFromOrg.removeTeamFromOrg RemoveTeamFromOrg.updateTeam
    RemoveTeamFromOrg.removeRedirect
  rw [hfind]
  dsimp only
  rw [if_pos hpar]
  dsimp only
  rcases h : truthyStr tm.slug with _ | sl
  · rfl
  · rfl

/-- C7 witness: concrete instance with a truthy slug. -/
theorem c7_witness :
    RemoveTeamFromOrg.removeTeamFromOrg 10 2 c7Store
      = (match truthyStr (some "x") with
         | none => RunResult.err (MigErr.http 400 ErrTag.noSlugForTeam) c7Store
         | some sl => RunResult.ok ()
             { c7Store with redirects := c7Store.redirects.filter (fun r => !redirectKeyIs r RedirectType.Team sl 0) }) :=
  c7_amended 10 2 c7Store ⟨2, some "x", none, ⟨false, none, none⟩⟩ (by decide) (by decide)

/-! ## Claim C8 -/

def c8Store : Store :=
  ⟨[⟨1, some "bob", "b1@x.com", none, ⟨none⟩⟩, ⟨2, some "bob", "b2@x.com", none, ⟨none⟩⟩],
   [exOrgTeam], [], []⟩

/-- C8 counterexample: two standalone users named `bob` make the userName
lookup ambiguous; the failure is a plain untyped `Error` (no status code,
mapped to a 500-class response by the handler), not a typed 400-class
`HttpError` as the claim requires. -/
theorem c8_counterexample :
    OrgMigration.migrateUserToOrg ⟨none, some "bob", 10, some "bob", .MEMBER, true⟩ 0 c8Store
        = RunResult.err (MigErr.plain ErrTag.moreThanOneUserFound) c8Store ∧
      MigErr.isHttpClass (MigErr.plain ErrTag.moreThanOneUserFound) = false :=
  ⟨rfl, rfl⟩

/-- C8 (amended): with `userName` designation and more than one user of that
name whose `organizationId` is null or the target org, `migrateUserToOrg`
fails with the plain (untyped, 500-class) ambiguity error, leaving the store
unchanged. -/
theorem c8_amended (a : OrgMigration.MigrateUserArgs) (now : Nat) (s : Store) (team : Team)
    (un : String)
    (hname : a.userName = some un) (hunne : un.isEmpty = false) (hid : a.userId = none)
    (hteam : findTeamById s a.targetOrgId = some team)
    (horg : team.metadata.isOrganization = true)
    (hmany : ((s.users.filter (fun u => decide (u.username = some un))).filter
        (fun u => decide (u.organizationId = some a.targetOrgId ∨ u.organizationId = none))).length
      > 1) :
    OrgMigration.migrateUserToOrg a now s
        = RunResult.err (MigErr.plain ErrTag.moreThanOneUserFound) s ∧
      MigErr.isHttpClass (MigErr.plain ErrTag.moreThanOneUserFound) = false := by
  refine ⟨?_, rfl⟩
  have hassert : OrgMigration.assertUserIdOrUserName a.userId a.userName = none := by
    unfold OrgMigration.assertUserIdOrUserName
    rw [hid, hname]
    simp [natTruthy, strTruthy, hunne]
  have hget : OrgMigration.getUniqueUserThatDoesntBelongToOrg a.userName a.userId a.targetOrgId s
      = Except.error (MigErr.plain ErrTag.moreThanOneUserFound) := by
    unfold OrgMigration.getUniqueUserThatDoesntBelongToOrg
    rw [hname]
    dsimp only [truthyStr]
    rw [if_neg (show ¬(un.isEmpty = true) by simp [hunne])]
    dsimp only
    rw [if_pos hmany]
  unfold OrgMigration.migrateUserToOrg OrgMigration.getTeamOrThrowError
  rw [hassert, hteam]
  dsimp only
  rw [horg, if_neg (show ¬((!true : Bool) = true) by simp)]
  rw [hget]

/-- C8 witness: the amended theorem at the two-bob store. -/
theorem c8_witness :
    OrgMigration.migrateUserToOrg ⟨none, some "bob", 10, some "bob", .MEMBER, true⟩ 0 c8Store
        = RunResult.err (MigErr.plain ErrTag.moreThanOneUserFound) c8Store ∧
      MigErr.isHttpClass (MigErr.plain ErrTag.moreThanOneUserFound) = false :=
  c8_amended ⟨none, some "bob", 10, some "bob", .MEMBER, true⟩ 0 c8Store exOrgTeam "bob"
    rfl rfl rfl (by decide) (by decide) (by decide)

/-! ## Claim C9 -/

/-- C9: inside the target org, reverting a user who was never migrated fails
with the 400 `userNeverMigrated` error, and reverting an already-reverted
user fails with the 400 `userAlreadyReverted` error; both errors carry the
input store, so no record is mutated.  (The code realizes both the
InvalidArgument and the Conflict class uniformly as 400 `HttpError`s with
distinct messages.) -/
theorem c9_revert_guards (targetOrgId uid now : Nat) (s : Store) (u : User)
    (hfind : findUserById s uid = some u)
    (horg : u.organizationId = some targetOrgId) :
    (u.metadata.migratedToOrgFrom = none →
      RemoveUserFromOrg.removeFromOrg targetOrgId uid now s
        = RunResult.err (MigErr.http 400 ErrTag.userNeverMigrated) s) ∧
    (∀ prov, u.metadata.migratedToOrgFrom = some prov → prov.reverted = some true →
      RemoveUserFromOrg.removeFromOrg targetOrgId uid now s
        = RunResult.err (MigErr.http 400 ErrTag.userAlreadyReverted) s) := by
  constructor
  · intro hnone
    unfold RemoveUserFromOrg.removeFromOrg
    rw [hfind]
    dsimp only
    rw [if_neg (fun h => h horg)]
    rw [hnone]
  · intro prov hprov hrev
    unfold RemoveUserFromOrg.removeFromOrg
    rw [hfind]
    dsimp only
    rw [if_neg (fun h => h horg)]
    rw [hprov]
    dsimp only
    rw [if_pos hrev]

/-- C9 witness: both guard failures at concrete stores. -/
theorem c9_witness :
    RemoveUserFromOrg.removeFromOrg 10 1 0 ⟨[⟨1, some "a", "a@x.com", some 10, ⟨none⟩⟩], [], [], []⟩
        = RunResult.err (MigErr.http 400 ErrTag.userNeverMigrated)
            ⟨[⟨1, some "a", "a@x.com", some 10, ⟨none⟩⟩], [], [], []⟩ ∧
      RemoveUserFromOrg.removeFromOrg 10 3 0
          ⟨[⟨3, some "c", "c@x.com", some 10, ⟨some ⟨none, some true, some 9, none⟩⟩⟩], [], [], []⟩
        = RunResult.err (MigErr.http 400 ErrTag.userAlreadyReverted)
            ⟨[⟨3, some "c", "c@x.com", some 10, ⟨some ⟨none, some true, some 9, none⟩⟩⟩], [], [], []⟩ :=
  ⟨(c9_revert_guards 10 1 0 ⟨[⟨1, some "a", "a@x.com", some 10, ⟨none⟩⟩], [], [], []⟩
      ⟨1, some "a", "a@x.com", some 10, ⟨none⟩⟩ rfl rfl).1 rfl,
   (c9_revert_guards 10 3 0
      ⟨[⟨3, some "c", "c@x.com", some 10, ⟨some ⟨none, some true, some 9, none⟩⟩⟩], [], [], []⟩
      ⟨3, some "c", "c@x.com", some 10, ⟨some ⟨none, some true, some 9, none⟩⟩⟩ rfl rfl).2
     ⟨none, some true, some 9, none⟩ rfl rfl⟩

/-! ## Claim C10 -/

def c10Store : Store :=
  ⟨[⟨3, some "carol-org", "c@x.com", some 10, ⟨some ⟨some "carol", none, none, some 1⟩⟩⟩],
   [exOrgTeam], [], [⟨.User, "carol", 0, "https://acme.cal.com/carol-org"⟩]⟩

def c10After : Store :=
  ⟨[⟨3, some "carol", "c@x.com", none, ⟨some ⟨none, some true, some 9, none⟩⟩⟩],
   [exOrgTeam], [], []⟩

/-- C10 counterexample: with the membership row absent, `removeFromOrg`
raises from the membership delete after the user has already been reverted —
but the re-run then fails at the organization-membership precondition
(`userNotPartOfOrg`, since `organizationId` is now null), not at the
already-reverted check as the claim states. -/
theorem c10_counterexample :
    RemoveUserFromOrg.removeFromOrg 10 3 9 c10Store
        = RunResult.err (MigErr.plain ErrTag.membershipNotFound) c10After ∧
      RemoveUserFromOrg.removeFromOrg 10 3 11 c10After
        = RunResult.err (MigErr.http 400 ErrTag.userNotPartOfOrg) c10After ∧
      ErrTag.userNotPartOfOrg ≠ ErrTag.userAlreadyReverted :=
  ⟨rfl, rfl, by decide⟩

/-- C10 (amended): if the preconditions pass but the `(userId, targetOrgId)`
membership row is absent, the membership delete raises (an untyped
store-layer error, not a delete-if-exists no-op); by then the user record is
already reverted (`organizationId` null, `reverted` true) and the user's
non-org membership teams reparented to null, so the operation is not atomic
on this error — and a re-run fails at the organization-membership
precondition, because the user no longer belongs to the org. -/
theorem c10_amended (targetOrgId uid now now2 : Nat) (s s3 : Store) (u : User)
    (p : MigratedToOrgFrom) (nn : String)
    (hfind : findUserById s uid = some u)
    (horg : u.organizationId = some targetOrgId)
    (hprov : u.metadata.migratedToOrgFrom = some p)
    (hrev : p.reverted ≠ some true)
    (hnn : truthyStr p.username = some nn)
    (habsent : s.memberships.any (fun m => membershipKeyIs m uid targetOrgId) = false)
    (hs3 : s3 = RemoveUserFromOrg.removeRedirect
        (RemoveUserFromOrg.updateUser (RemoveUserFromOrg.updateTeams s u.id).2 u.id nn now)
        (some nn) (RemoveUserFromOrg.updateTeams s u.id).1) :
    RemoveUserFromOrg.removeFromOrg targetOrgId uid now s
        = RunResult.err (MigErr.plain ErrTag.membershipNotFound) s3 ∧
      (∃ u3, findUserById s3 uid = some u3 ∧ u3.organizationId = none ∧
        u3.username = some nn ∧
        u3.metadata.migratedToOrgFrom = some ⟨none, some true, some now, none⟩) ∧
      (∀ t ∈ s3.teams, t.metadata.isOrganization = false →
        (∃ m ∈ s.memberships, m.userId = uid ∧ m.teamId = t.id) → t.parentId = none) ∧
      RemoveUserFromOrg.removeFromOrg targetOrgId uid now2 s3
        = RunResult.err (MigErr.http 400 ErrTag.userNotPartOfOrg) s3 := by
  have huid : u.id = uid := by
    have := List.find?_some hfind
    simpa using this
  have hmem3 : s3.memberships = s.memberships := by
    rw [hs3]
    rw [RemoveUserFromOrg.removeRedirect_proj Store.memberships (fun _ _ _ _ => rfl)]
    rw [RemoveUserFromOrg.revUpdateUser_memberships]
    rw [RemoveUserFromOrg.revUpdateTeams_snd_memberships]
  have husers : s3.users = s.users.map (fun x =>
      if x.id = u.id then
        { x with organizationId := none, username := some nn,
                 metadata := { migratedToOrgFrom := some ⟨none, some true, some now, none⟩ } }
      else x) := by
    rw [hs3]
    rw [RemoveUserFromOrg.removeRedirect_proj Store.users (fun _ _ _ _ => rfl)]
    show ((RemoveUserFromOrg.updateTeams s u.id).2.users).map _ = _
    rw [RemoveUserFromOrg.revUpdateTeams_snd_users]
  have hteams : s3.teams = s.teams.map (fun t =>
      if t.id ∈ nonOrgMembershipTeamIds s u.id then { t with parentId := none } else t) := by
    rw [hs3]
    rw [RemoveUserFromOrg.removeRedirect_proj Store.teams (fun _ _ _ _ => rfl)]
    rw [RemoveUserFromOrg.revUpdateUser_teams]
    rw [RemoveUserFromOrg.revUpdateTeams_snd_teams]
  have hfind3 : findUserById s3 uid = some
      { u with organizationId := none, username := some nn,
               metadata := { migratedToOrgFrom := some ⟨none, some true, some now, none⟩ } } := by
    unfold findUserById
    rw [husers]
    rw [find?_map_pred _ _ _ (fun x => by
      by_cases hx : x.id = u.id
      · rw [if_pos hx]
      · rw [if_neg hx])]
    unfold findUserById at hfind
    rw [hfind]
    simp only [Option.map_some']
    simp
  constructor
  · unfold RemoveUserFromOrg.removeFromOrg
    rw [hfind]
    dsimp only
    rw [if_neg (fun h => h horg)]
    rw [hprov]
    dsimp only
    rw [if_neg hrev]
    rw [hnn]
    dsimp only
    unfold RemoveUserFromOrg.removeMembership deleteMembership
    rw [← hs3]
    rw [hmem3]
    rw [huid]
    rw [if_neg (by rw [habsent]; exact fun h => Bool.false_ne_true h)]
  refine ⟨⟨_, hfind3, rfl, rfl, rfl⟩, ?_, ?_⟩
  · intro t ht hto hm
    rw [hteams] at ht
    rw [List.mem_map] at ht
    obtain ⟨t0, ht0, ht0t⟩ := ht
    obtain ⟨m, hmmem, hmuid, hmtid⟩ := hm
    have hmeta0 : t0.metadata.isOrganization = false := by
      by_cases hin : t0.id ∈ nonOrgMembershipTeamIds s u.id
      · rw [if_pos hin] at ht0t
        rw [← ht0t] at hto
        exact hto
      · rw [if_neg hin] at ht0t
        rw [← ht0t] at hto
        exact hto
    have htid0 : t.id = t0.id := by
      by_cases hin : t0.id ∈ nonOrgMembershipTeamIds s u.id
      · rw [if_pos hin] at ht0t
        rw [← ht0t]
      · rw [if_neg hin] at ht0t
        rw [← ht0t]
    have hin : t0.id ∈ nonOrgMembershipTeamIds s u.id := by
      unfold nonOrgMembershipTeamIds
      rw [List.mem_map]
      refine ⟨t0, ?_, rfl⟩
      unfold nonOrgMembershipTeams
      rw [mem_nonOrgTeamsOf]
      refine ⟨ht0, ?_, hmeta0⟩
      have := mem_userMembershipTeamIds s u.id m hmmem (by rw [hmuid, huid])
      rw [hmtid, htid0] at this
      exact this
    rw [if_pos hin] at ht0t
    rw [← ht0t]
  · unfold RemoveUserFromOrg.removeFromOrg
    rw [hfind3]
    dsimp only
    rw [if_pos (show (none : Option Nat) ≠ some targetOrgId by exact fun h => Option.noConfusion h)]

/-- C10 witness: the amended behavior at the concrete store. -/
theorem c10_witness :
    RemoveUserFromOrg.removeFromOrg 10 3 9 c10Store
        = RunResult.err (MigErr.plain ErrTag.membershipNotFound) c10After ∧
      RemoveUserFromOrg.removeFromOrg 10 3 11 c10After
        = RunResult.err (MigErr.http 400 ErrTag.userNotPartOfOrg) c10After :=
  ⟨(c10_amended 10 3 9 11 c10Store c10After
      ⟨3, some "carol-org", "c@x.com", some 10, ⟨some ⟨some "carol", none, none, some 1⟩⟩⟩
      ⟨some "carol", none, none, some 1⟩ "carol" rfl rfl rfl (by decide) rfl rfl rfl).1,
   (c10_amended 10 3 9 11 c10Store c10After
      ⟨3, some "carol-org", "c@x.com", some 10, ⟨some ⟨some "carol", none, none, some 1⟩⟩⟩
      ⟨some "carol", none, none, some 1⟩ "carol" rfl rfl rfl (by decide) rfl rfl rfl).2.2.2⟩

/-! ## Toolbox for the idempotence and round-trip proofs -/

theorem truthyStr_eq_some {o : Option String} {v : String} (h : truthyStr o = some v) :
    o = some v ∧ v.isEmpty = false := by
  rcases o with _ | s
  · simp [truthyStr] at h
  · unfold truthyStr at h
    dsimp only at h
    by_cases he : s.isEmpty
    · rw [if_pos he] at h
      exact Option.noConfusion h
    · rw [if_neg he] at h
      have hs : s = v := Option.some.inj h
      subst hs
      exact ⟨rfl, by simpa using he⟩

theorem truthyStr_some_of_nonempty {v : String} (h : v.isEmpty = false) :
    truthyStr (some v) = some v := by
  unfold truthyStr
  dsimp only
  rw [if_neg (by simp [h])]

theorem strTruthy_of_truthyStr {o : Option String} {v : String} (h : truthyStr o = some v) :
    strTruthy o = true := by
  obtain ⟨ho, hv⟩ := truthyStr_eq_some h
  rw [ho]
  unfold strTruthy
  simp [hv]

theorem orElseStr_first {a b : Option String} {v : String} (h : truthyStr a = some v) :
    orElseStr a b = a := by
  unfold orElseStr
  rw [if_pos (strTruthy_of_truthyStr h)]

theorem orElseStr_second {a : Option String} (b : Option String) (h : strTruthy a = false) :
    orElseStr a b = b := by
  unfold orElseStr
  rw [if_neg (by simp [h])]

theorem Store.eq_of_fields {a b : Store} (h1 : a.users = b.users) (h2 : a.teams = b.teams)
    (h3 : a.memberships = b.memberships) (h4 : a.redirects = b.redirects) : a = b := by
  cases a
  cases b
  simp_all

theorem pairwise_ne_unique {α : Type} (key : α → Nat) {l : List α}
    (hp : l.Pairwise (fun x y => key x ≠ key y)) (x y : α) (hx : x ∈ l) (hy : y ∈ l)
    (hk : key x = key y) : x = y := by
  induction l with
  | nil => cases hx
  | cons z zs ih =>
    rw [List.pairwise_cons] at hp
    rcases List.mem_cons.mp hx with hxz | hx'
    · rcases List.mem_cons.mp hy with hyz | hy'
      · rw [hxz, hyz]
      · exfalso
        rw [hxz] at hk
        exact hp.1 y hy' hk
    · rcases List.mem_cons.mp hy with hyz | hy'
      · exfalso
        rw [hyz] at hk
        exact hp.1 x hx' hk.symm
      · exact ih hp.2 hx' hy'

theorem foldl_fixed {α β : Type} (g : β → α → β) (b : β) (l : List α)
    (h : ∀ x ∈ l, g b x = b) : l.foldl g b = b := by
  induction l with
  | nil => rfl
  | cons x xs ih =>
    rw [List.foldl_cons, h x (List.mem_cons_self x xs)]
    exact ih (fun y hy => h y (List.mem_cons_of_mem x hy))

theorem any_filter_not {α : Type} (l : List α) (p : α → Bool) :
    (l.filter (fun x => !p x)).any p = false := by
  rw [List.any_eq_false]
  intro x hx
  have := (List.mem_filter.mp hx).2
  simp only [Bool.not_eq_true'] at this
  simp [this]

theorem userMembershipTeamIds_congr {s s' : Store} (h : s.memberships = s'.memberships)
    (uid : Nat) : userMembershipTeamIds s uid = userMembershipTeamIds s' uid := by
  unfold userMembershipTeamIds userMemberships
  rw [h]

theorem userMemberships_congr {s s' : Store} (h : s.memberships = s'.memberships) (uid : Nat) :
    userMemberships s uid = userMemberships s' uid := by
  unfold userMemberships
  rw [h]

theorem nonOrgMembershipTeams_congr {s s' : Store} (ht : s.teams = s'.teams)
    (hm : s.memberships = s'.memberships) (uid : Nat) :
    nonOrgMembershipTeams s uid = nonOrgMembershipTeams s' uid := by
  unfold nonOrgMembershipTeams
  rw [ht, userMembershipTeamIds_congr hm]

theorem membershipSet_congr {s s' : Store} (h : s.memberships = s'.memberships)
    {uid tid : Nat} {role : MembershipRole} {acc : Bool}
    (hm : membershipSet s uid tid role acc) : membershipSet s' uid tid role acc := by
  unfold membershipSet at hm ⊢
  rw [← h]
  exact hm

theorem redirectSet_congr {s s' : Store} (h : s.redirects = s'.redirects)
    {ty : RedirectType} {f : String} {o : Nat} {v : String}
    (hr : redirectSet s ty f o v) : redirectSet s' ty f o v := by
  unfold redirectSet at hr ⊢
  rw [← h]
  exact hr

theorem deleteMembership_ok_fields {s s' : Store} {uid tid : Nat}
    (h : deleteMembership s uid tid = Except.ok s') :
    s'.users = s.users ∧ s'.teams = s.teams ∧ s'.redirects = s.redirects ∧
    s'.memberships = s.memberships.filter (fun m => !membershipKeyIs m uid tid) := by
  unfold deleteMembership at h
  by_cases hex : s.memberships.any (fun m => membershipKeyIs m uid tid) = true
  · rw [if_pos hex] at h
    have := Except.ok.inj h
    rw [← this]
    exact ⟨rfl, rfl, rfl, rfl⟩
  · rw [if_neg hex] at h
    exact Except.noConfusion h

theorem OrgMigration.teamRedirectUpsert_preserves (base : String) (ts : List Team) (acc : Store)
    {ty : RedirectType} {f : String} {v : String}
    (h : redirectSet acc ty f 0 v)
    (hcomp : ∀ sl : String, ty = RedirectType.Team → f = sl → v = base ++ "/team/" ++ sl) :
    redirectSet (ts.foldl (teamRedirectUpsert base) acc) ty f 0 v := by
  induction ts generalizing acc with
  | nil => exact h
  | cons t ts ih =>
    rw [List.foldl_cons]
    apply ih
    unfold teamRedirectUpsert
    rcases h3 : truthyStr t.slug with _ | sl
    · exact h
    · exact upsertRedirect_preserves acc h RedirectType.Team sl 0 (base ++ "/team/" ++ sl)
        (fun hx => hcomp sl hx.1 hx.2.1)

theorem OrgMigration.teamRedirectUpsert_establishes (base : String) (ts : List Team)
    (acc : Store) (t : Team) (ht : t ∈ ts) (sl : String) (hsl : truthyStr t.slug = some sl) :
    redirectSet (ts.foldl (teamRedirectUpsert base) acc) RedirectType.Team sl 0
      (base ++ "/team/" ++ sl) := by
  induction ts generalizing acc with
  | nil => cases ht
  | cons t' ts ih =>
    rw [List.foldl_cons]
    rcases List.mem_cons.mp ht with h0 | ht'
    · apply teamRedirectUpsert_preserves
      · unfold teamRedirectUpsert
        rw [← h0, hsl]
        exact upsertRedirect_establishes acc RedirectType.Team sl 0 (base ++ "/team/" ++ sl)
      · intro sl' h1 h2
        rw [h2]
    · exact ih _ ht'

theorem OrgMigration.addRedirect_redirectSet (s : Store) (nn : String) (hnn : nn.isEmpty = false)
    (org : Team) (tun : String) (ts : List Team) (osl : String)
    (horg : truthyStr (orElseStr org.slug org.metadata.requestedSlug) = some osl) :
    redirectSet (addRedirect s (some nn) org tun ts) RedirectType.User nn 0
        (getOrgFullOrigin osl ++ "/" ++ tun) ∧
    ∀ t ∈ ts, ∀ sl, truthyStr t.slug = some sl →
      redirectSet (addRedirect s (some nn) org tun ts) RedirectType.Team sl 0
        (getOrgFullOrigin osl ++ "/team/" ++ sl) := by
  unfold addRedirect
  rw [truthyStr_some_of_nonempty hnn, horg]
  dsimp only
  constructor
  · apply teamRedirectUpsert_preserves
    · exact upsertRedirect_establishes s RedirectType.User nn 0 (getOrgFullOrigin osl ++ "/" ++ tun)
    · intro sl h1 h2
      exact absurd h1 (by simp)
  · intro t ht sl hsl
    exact teamRedirectUpsert_establishes _ ts _ t ht sl hsl

theorem OrgMigration.addRedirect_noop (s : Store) (nn : String) (hnn : nn.isEmpty = false)
    (org : Team) (tun : String) (ts : List Team) (osl : String)
    (horg : truthyStr (orElseStr org.slug org.metadata.requestedSlug) = some osl)
    (hu : redirectSet s RedirectType.User nn 0 (getOrgFullOrigin osl ++ "/" ++ tun))
    (hts : ∀ t ∈ ts, ∀ sl, truthyStr t.slug = some sl →
      redirectSet s RedirectType.Team sl 0 (getOrgFullOrigin osl ++ "/team/" ++ sl)) :
    addRedirect s (some nn) org tun ts = s := by
  unfold addRedirect
  rw [truthyStr_some_of_nonempty hnn, horg]
  dsimp only
  rw [upsertRedirect_noop s _ _ _ _ hu]
  apply foldl_fixed
  intro t ht
  unfold teamRedirectUpsert
  rcases h3 : truthyStr t.slug with _ | sl
  · rfl
  · exact upsertRedirect_noop s _ _ _ _ (hts t ht sl h3)

theorem RemoveUserFromOrg.teamRedirectDelete_preserves_absent (ts : List Team) (acc : Store)
    {ty : RedirectType} {f : String} {o : Nat} (h : redirectAbsent acc ty f o) :
    redirectAbsent (ts.foldl teamRedirectDelete acc) ty f o := by
  induction ts generalizing acc with
  | nil => exact h
  | cons t ts ih =>
    rw [List.foldl_cons]
    apply ih
    unfold teamRedirectDelete
    rcases h3 : truthyStr t.slug with _ | sl
    · exact h
    · exact deleteRedirects_preserves_absent acc h _ _ _

theorem RemoveUserFromOrg.teamRedirectDelete_establishes (ts : List Team) (acc : Store)
    (t : Team) (ht : t ∈ ts) (sl : String) (hsl : truthyStr t.slug = some sl) :
    redirectAbsent (ts.foldl teamRedirectDelete acc) RedirectType.Team sl 0 := by
  induction ts generalizing acc with
  | nil => cases ht
  | cons t' ts ih =>
    rw [List.foldl_cons]
    rcases List.mem_cons.mp ht with h0 | ht'
    · apply teamRedirectDelete_preserves_absent
      unfold teamRedirectDelete
      rw [← h0, hsl]
      exact deleteRedirects_absent acc RedirectType.Team sl 0
    · exact ih _ ht'

theorem RemoveUserFromOrg.removeRedirect_user_absent (s : Store) (nn : String)
    (hnn : nn.isEmpty = false) (ts : List Team) :
    redirectAbsent (removeRedirect s (some nn) ts) RedirectType.User nn 0 := by
  unfold removeRedirect
  rw [truthyStr_some_of_nonempty hnn]
  dsimp only
  exact teamRedirectDelete_preserves_absent ts _ (deleteRedirects_absent s _ _ _)

theorem RemoveUserFromOrg.removeRedirect_team_absent (s : Store) (nn : String)
    (hnn : nn.isEmpty = false) (ts : List Team) (t : Team) (ht : t ∈ ts) (sl : String)
    (hsl : truthyStr t.slug = some sl) :
    redirectAbsent (removeRedirect s (some nn) ts) RedirectType.Team sl 0 := by
  unfold removeRedirect
  rw [truthyStr_some_of_nonempty hnn]
  dsimp only
  exact teamRedirectDelete_establishes ts _ t ht sl hsl

theorem strTruthy_eq_some {o : Option String} (h : strTruthy o = true) :
    ∃ v, o = some v ∧ truthyStr o = some v := by
  rcases o with _ | s
  · simp [strTruthy] at h
  · refine ⟨s, rfl, ?_⟩
    unfold strTruthy at h
    have hs : s.isEmpty = false := by simpa using h
    exact truthyStr_some_of_nonempty hs

/-- The per-row update applied to the migrated user's record (lines 348-365),
as a standalone function used by the specification lemmas below. -/
def OrgMigration.migratedUserUpd (uid targetOrgId : Nat) (tun nn : String) (now : Nat)
    (x : User) : User :=
  if x.id = uid then
    { x with organizationId := some targetOrgId, username := some tun,
             metadata := { migratedToOrgFrom := some ⟨some nn, none, none, some now⟩ } }
  else x

theorem OrgMigration.updateUser_users (s : Store) (u : User) (g : Nat) (tun nn : String)
    (now : Nat) : (updateUser s u g tun nn now).users
      = s.users.map (migratedUserUpd u.id g tun nn now) := rfl

/-- The target organization's id never appears among the user's non-org
membership team ids. -/
theorem target_not_in_nonOrgIds (s : Store) (uid g : Nat) (team : Team)
    (hteams : s.teams.Pairwise (fun x y => x.id ≠ y.id))
    (hteam : team ∈ s.teams) (hteamid : team.id = g)
    (horg : team.metadata.isOrganization = true) :
    g ∉ nonOrgMembershipTeamIds s uid := by
  intro hg
  unfold nonOrgMembershipTeamIds nonOrgMembershipTeams at hg
  rw [List.mem_map] at hg
  obtain ⟨t, ht, htid⟩ := hg
  rw [mem_nonOrgTeamsOf] at ht
  have heq : t = team :=
    pairwise_ne_unique (fun x => x.id) hteams t team ht.1 hteam (by show t.id = team.id; rw [htid, hteamid])
  rw [heq] at ht
  rw [horg] at ht
  exact Bool.noConfusion ht.2.2

theorem map_congr_mem {α β : Type} (l : List α) (f g : α → β) (h : ∀ x ∈ l, f x = g x) :
    l.map f = l.map g := by
  induction l with
  | nil => rfl
  | cons x xs ih =>
    rw [List.map_cons, List.map_cons, h x (List.mem_cons_self x xs)]
    rw [ih (fun y hy => h y (List.mem_cons_of_mem x hy))]

/-- Specification of a successful mutation tail: how the final store relates
to the initial one.  `hfun` is the transformation applied to every team row
(reparenting, possibly followed by the slug back-fill). -/
theorem OrgMigration.applyMigration_ok_spec (s : Store) (u : User) (team : Team) (g : Nat)
    (tun nn : String) (role : MembershipRole) (acc : Bool) (now : Nat) (s1 : Store) (uid : Nat)
    (huid : u.id = uid)
    (hteams : s.teams.Pairwise (fun x y => x.id ≠ y.id))
    (hteam : team ∈ s.teams) (hteamid : team.id = g)
    (horg : team.metadata.isOrganization = true)
    (hnnne : nn.isEmpty = false)
    (h : applyMigration s u team g tun nn role acc now = RunResult.ok () s1) :
    ∃ (osl : String) (hfun : Team → Team),
      s1.users = s.users.map (migratedUserUpd uid g tun nn now) ∧
      membershipSet s1 uid g role acc ∧
      (∀ x : Nat, x ∈ userMembershipTeamIds s1 uid ↔ x ∈ userMembershipTeamIds s uid ∨ x = g) ∧
      s1.teams = s.teams.map hfun ∧
      (∀ t, (hfun t).id = t.id) ∧ (∀ t, (hfun t).metadata = t.metadata) ∧
      (∀ t ∈ s.teams, t.id ∈ nonOrgMembershipTeamIds s uid → (hfun t).parentId = some g) ∧
      (∀ t ∈ s.teams, t.id ≠ g → (hfun t).slug = t.slug) ∧
      truthyStr (orElseStr team.slug team.metadata.requestedSlug) = some osl ∧
      truthyStr (hfun team).slug = some osl ∧
      redirectSet s1 RedirectType.User nn 0 (getOrgFullOrigin osl ++ "/" ++ tun) ∧
      (∀ t ∈ nonOrgMembershipTeams s uid, ∀ sl, truthyStr t.slug = some sl →
        redirectSet s1 RedirectType.Team sl 0 (getOrgFullOrigin osl ++ "/team/" ++ sl)) := by
  have htgtnotin : g ∉ nonOrgMembershipTeamIds s uid :=
    target_not_in_nonOrgIds s uid g team hteams hteam hteamid horg
  unfold applyMigration at h
  dsimp only at h
  split at h
  · exact RunResult.noConfusion h
  rename_i s5 heq
  obtain ⟨-, hs5⟩ := RunResult.ok.inj h
  -- abbreviations
  set sU := updateUser s u g tun nn now with hsU
  set P := updateTeams sU u.id g with hP
  set s3 := upsertMembership P.2 u.id g role acc with hs3
  set S4 := addRedirect s3 (some nn) team tun P.1 with hS4
  -- facts about the intermediate stores
  have hsUu : sU.users = s.users.map (migratedUserUpd uid g tun nn now) := by
    rw [hsU, updateUser_users, huid]
  have hsUt : sU.teams = s.teams := rfl
  have hsUm : sU.memberships = s.memberships := rfl
  have hidsU : nonOrgMembershipTeamIds sU u.id = nonOrgMembershipTeamIds s uid := by
    unfold nonOrgMembershipTeamIds
    rw [@nonOrgMembershipTeams_congr sU s hsUt hsUm u.id, huid]
  have hP1 : P.1 = nonOrgMembershipTeams s uid := by
    rw [hP, OrgMigration.updateTeams_fst, @nonOrgMembershipTeams_congr sU s hsUt hsUm u.id, huid]
  have hP2t : P.2.teams = s.teams.map (fun t =>
      if t.id ∈ nonOrgMembershipTeamIds s uid then { t with parentId := some g } else t) := by
    rw [hP, OrgMigration.updateTeams_snd_teams, hidsU, hsUt]
  have hP2u : P.2.users = s.users.map (migratedUserUpd uid g tun nn now) := by
    rw [hP, OrgMigration.updateTeams_snd_users, hsUu]
  have hP2m : P.2.memberships = s.memberships := by
    rw [hP, OrgMigration.updateTeams_snd_memberships, hsUm]
  have hs3u : s3.users = s.users.map (migratedUserUpd uid g tun nn now) := by
    rw [hs3, upsertMembership_users, hP2u]
  have hs3t : s3.teams = s.teams.map (fun t =>
      if t.id ∈ nonOrgMembershipTeamIds s uid then { t with parentId := some g } else t) := by
    rw [hs3, upsertMembership_teams, hP2t]
  have hS4u : S4.users = s.users.map (migratedUserUpd uid g tun nn now) := by
    rw [hS4, OrgMigration.addRedirect_proj Store.users upsertRedirect_users, hs3u]
  have hS4t : S4.teams = s.teams.map (fun t =>
      if t.id ∈ nonOrgMembershipTeamIds s uid then { t with parentId := some g } else t) := by
    rw [hS4, OrgMigration.addRedirect_proj Store.teams upsertRedirect_teams, hs3t]
  have hS4m : S4.memberships = s3.memberships := by
    rw [hS4, OrgMigration.addRedirect_proj Store.memberships upsertRedirect_memberships]
  have hmS4 : membershipSet S4 uid g role acc := by
    apply membershipSet_congr hS4m.symm
    rw [hs3, huid]
    exact upsertMembership_establishes P.2 uid g role acc
  have htidsS4 : ∀ x : Nat, x ∈ userMembershipTeamIds S4 uid ↔
      x ∈ userMembershipTeamIds s uid ∨ x = g := by
    intro x
    rw [userMembershipTeamIds_congr hS4m uid]
    rw [hs3]
    rw [show upsertMembership P.2 u.id g role acc = upsertMembership P.2 uid g role acc by
      rw [huid]]
    rw [userMembershipTeamIds_upsert]
    rw [userMembershipTeamIds_congr hP2m uid]
  -- the org slug used by the redirect step
  have hosl : ∃ osl, truthyStr (orElseStr team.slug team.metadata.requestedSlug) = some osl := by
    unfold setOrgSlugIfNotSet at heq
    by_cases hst : strTruthy team.slug = true
    · obtain ⟨v, hv, htv⟩ := strTruthy_eq_some hst
      exact ⟨v, by rw [orElseStr_first htv]; exact htv⟩
    · rw [if_neg hst] at heq
      rcases hreq : truthyStr team.metadata.requestedSlug with _ | req
      · rw [hreq] at heq
        exact Except.noConfusion heq
      · refine ⟨req, ?_⟩
        rw [orElseStr_second _ (by simpa using hst)]
        exact hreq
  obtain ⟨osl, hosl⟩ := hosl
  have hredS4 := OrgMigration.addRedirect_redirectSet s3 nn hnnne team tun P.1 osl hosl
  rw [← hS4] at hredS4
  rw [hP1] at hredS4
  -- case split on the slug back-fill
  unfold setOrgSlugIfNotSet at heq
  by_cases hst : strTruthy team.slug = true
  · -- the org already has a slug: the back-fill is a no-op and s1 = S4
    rw [if_pos hst] at heq
    have hS4s1 : S4 = s1 := by
      rw [← hs5]
      exact Except.ok.inj heq
    obtain ⟨v, hv, htv⟩ := strTruthy_eq_some hst
    have hoslv : osl = v := by
      rw [orElseStr_first htv, htv] at hosl
      exact (Option.some.inj hosl).symm
    refine ⟨osl, fun t =>
      if t.id ∈ nonOrgMembershipTeamIds s uid then { t with parentId := some g } else t,
      ?_, ?_, ?_, ?_, ?_, ?_, ?_, ?_, hosl, ?_, ?_, ?_⟩
    · rw [← hS4s1]
      exact hS4u
    · rw [← hS4s1]
      exact hmS4
    · rw [← hS4s1]
      exact htidsS4
    · rw [← hS4s1]
      exact hS4t
    · intro t
      dsimp only
      by_cases ht : t.id ∈ nonOrgMembershipTeamIds s uid
      · rw [if_pos ht]
      · rw [if_neg ht]
    · intro t
      dsimp only
      by_cases ht : t.id ∈ nonOrgMembershipTeamIds s uid
      · rw [if_pos ht]
      · rw [if_neg ht]
    · intro t htmem htin
      dsimp only
      rw [if_pos htin]
    · intro t htmem htne
      dsimp only
      by_cases ht : t.id ∈ nonOrgMembershipTeamIds s uid
      · rw [if_pos ht]
      · rw [if_neg ht]
    · dsimp only
      rw [if_neg (by rw [hteamid]; exact htgtnotin)]
      rw [hoslv, hv]
      exact truthyStr_some_of_nonempty (truthyStr_eq_some htv).2
    · rw [← hS4s1]
      exact hredS4.1
    · intro t htmem sl hsl
      rw [← hS4s1]
      exact hredS4.2 t htmem sl hsl
  · -- the slug back-fill adopted requestedSlug
    rw [if_neg hst] at heq
    rcases hreq : truthyStr team.metadata.requestedSlug with _ | req
    · rw [hreq] at heq
      exact Except.noConfusion heq
    rw [hreq] at heq
    dsimp only at heq
    have hs1eq : s1 = setOrgSlug S4 g req := by
      rw [← hs5]
      exact (Except.ok.inj heq).symm
    have hoslreq : osl = req := by
      rw [orElseStr_second _ (by simpa using hst), hreq] at hosl
      exact (Option.some.inj hosl).symm
    have hreqne : req.isEmpty = false := (truthyStr_eq_some hreq).2
    refine ⟨osl, fun t =>
      if t.id = g then
        { (if t.id ∈ nonOrgMembershipTeamIds s uid then { t with parentId := some g } else t)
          with slug := some req }
      else (if t.id ∈ nonOrgMembershipTeamIds s uid then { t with parentId := some g } else t),
      ?_, ?_, ?_, ?_, ?_, ?_, ?_, ?_, hosl, ?_, ?_, ?_⟩
    · rw [hs1eq, OrgMigration.setOrgSlug_users, hS4u]
    · exact membershipSet_congr
        (show S4.memberships = s1.memberships by rw [hs1eq, OrgMigration.setOrgSlug_memberships]) hmS4
    · intro x
      rw [userMembershipTeamIds_congr (show s1.memberships = S4.memberships by
        rw [hs1eq, OrgMigration.setOrgSlug_memberships]) uid]
      exact htidsS4 x
    · rw [hs1eq]
      unfold setOrgSlug
      show Store.teams _ = _
      rw [hS4t, List.map_map]
      apply map_congr_mem
      intro t ht
      simp only [Function.comp_apply]
      by_cases htin : t.id ∈ nonOrgMembershipTeamIds s uid
      · rw [if_pos htin]
      · rw [if_neg htin]
    · intro t
      dsimp only
      by_cases htg : t.id = g
      · rw [if_pos htg]
        by_cases htin : t.id ∈ nonOrgMembershipTeamIds s uid
        · rw [if_pos htin]
        · rw [if_neg htin]
      · rw [if_neg htg]
        by_cases htin : t.id ∈ nonOrgMembershipTeamIds s uid
        · rw [if_pos htin]
        · rw [if_neg htin]
    · intro t
      dsimp only
      by_cases htg : t.id = g
      · rw [if_pos htg]
        by_cases htin : t.id ∈ nonOrgMembershipTeamIds s uid
        · rw [if_pos htin]
        · rw [if_neg htin]
      · rw [if_neg htg]
        by_cases htin : t.id ∈ nonOrgMembershipTeamIds s uid
        · rw [if_pos htin]
        · rw [if_neg htin]
    · intro t htmem htin
      dsimp only
      by_cases htg : t.id = g
      · rw [if_pos htg, if_pos htin]
      · rw [if_neg htg, if_pos htin]
    · intro t htmem htne
      dsimp only
      rw [if_neg htne]
      by_cases htin : t.id ∈ nonOrgMembershipTeamIds s uid
      · rw [if_pos htin]
      · rw [if_neg htin]
    · dsimp only
      rw [if_pos hteamid]
      rw [hoslreq]
      exact truthyStr_some_of_nonempty hreqne
    · apply redirectSet_congr (by rw [hs1eq, OrgMigration.setOrgSlug_redirects] :
        S4.redirects = s1.redirects)
      exact hredS4.1
    · intro t htmem sl hsl
      apply redirectSet_congr (show S4.redirects = s1.redirects by
        rw [hs1eq, OrgMigration.setOrgSlug_redirects])
      exact hredS4.2 t htmem sl hsl

/-- Full specification of a successful `migrateUserToOrg` by `userId`: the
checks that must have passed and the relation of the final store to the
initial one. -/
theorem OrgMigration.migrate_ok_spec
    (a : MigrateUserArgs) (now : Nat) (s s1 : Store) (uid : Nat)
    (hid : a.userId = some uid) (hname : a.userName = none) (huid0 : uid ≠ 0)
    (husers : s.users.Pairwise (fun x y => x.id ≠ y.id))
    (hteams : s.teams.Pairwise (fun x y => x.id ≠ y.id))
    (horg0 : ∀ v ∈ s.users, v.organizationId ≠ some 0)
    (h1 : migrateUserToOrg a now s = RunResult.ok () s1) :
    ∃ (team : Team) (u : User) (nn osl : String) (hfun : Team → Team),
      findTeamById s a.targetOrgId = some team ∧
      team.metadata.isOrganization = true ∧
      findUserById s uid = some u ∧ u.id = uid ∧
      (u.organizationId = none ∨ u.organizationId = some a.targetOrgId) ∧
      truthyStr (nonOrgUserNameOf u) = some nn ∧
      (s.users.find? (fun w => decide (w.username
          = some (resolveTargetOrgUsername a.targetOrgUsername u team)
          ∧ w.organizationId = some a.targetOrgId)) = none ∨
       s.users.find? (fun w => decide (w.username
          = some (resolveTargetOrgUsername a.targetOrgUsername u team)
          ∧ w.organizationId = some a.targetOrgId)) = some u) ∧
      s1.users = s.users.map (migratedUserUpd uid a.targetOrgId
        (resolveTargetOrgUsername a.targetOrgUsername u team) nn now) ∧
      membershipSet s1 uid a.targetOrgId a.targetOrgRole a.targetOrgMembershipAccepted ∧
      (∀ x : Nat, x ∈ userMembershipTeamIds s1 uid
        ↔ x ∈ userMembershipTeamIds s uid ∨ x = a.targetOrgId) ∧
      s1.teams = s.teams.map hfun ∧
      (∀ t, (hfun t).id = t.id) ∧ (∀ t, (hfun t).metadata = t.metadata) ∧
      (∀ t ∈ s.teams, t.id ∈ nonOrgMembershipTeamIds s uid
        → (hfun t).parentId = some a.targetOrgId) ∧
      (∀ t ∈ s.teams, t.id ≠ a.targetOrgId → (hfun t).slug = t.slug) ∧
      truthyStr (orElseStr team.slug team.metadata.requestedSlug) = some osl ∧
      truthyStr (hfun team).slug = some osl ∧
      redirectSet s1 RedirectType.User nn 0 (getOrgFullOrigin osl ++ "/"
        ++ resolveTargetOrgUsername a.targetOrgUsername u team) ∧
      (∀ t ∈ nonOrgMembershipTeams s uid, ∀ sl, truthyStr t.slug = some sl →
        redirectSet s1 RedirectType.Team sl 0 (getOrgFullOrigin osl ++ "/team/" ++ sl)) := by
  have hassert : assertUserIdOrUserName a.userId a.userName = none := by
    unfold assertUserIdOrUserName
    rw [hid, hname]
    simp [natTruthy, strTruthy, huid0]
  -- walk the preliminary checks
  unfold migrateUserToOrg getTeamOrThrowError at h1
  rw [hassert] at h1
  dsimp only at h1
  rcases hteamf : findTeamById s a.targetOrgId with _ | team
  · rw [hteamf] at h1
    dsimp only at h1
    exact RunResult.noConfusion h1
  rw [hteamf] at h1
  dsimp only at h1
  by_cases horg : team.metadata.isOrganization = true
  case neg =>
    exfalso
    rw [show team.metadata.isOrganization = false by simpa using horg] at h1
    rw [if_pos (by simp : (!false : Bool) = true)] at h1
    exact RunResult.noConfusion h1
  rw [horg, if_neg (show ¬((!true : Bool) = true) by simp)] at h1
  have hgu : getUniqueUserThatDoesntBelongToOrg a.userName a.userId a.targetOrgId s
      = Except.ok (findUserById s uid) := by
    unfold getUniqueUserThatDoesntBelongToOrg
    rw [hname, hid]
    dsimp only [truthyStr]
  rw [hgu] at h1
  dsimp only at h1
  rcases hfind : findUserById s uid with _ | u
  · rw [hfind] at h1
    unfold assertUserPartOfOtherOrg at h1
    dsimp only at h1
    exact RunResult.noConfusion h1
  rw [hfind] at h1
  have huid : u.id = uid := by simpa using List.find?_some hfind
  have humem : u ∈ s.users := List.mem_of_find?_eq_some hfind
  unfold assertUserPartOfOtherOrg at h1
  dsimp only at h1
  by_cases hcond : (natTruthy u.organizationId
      && decide (u.organizationId ≠ some a.targetOrgId)) = true
  · rw [if_pos hcond] at h1
    dsimp only at h1
    exact RunResult.noConfusion h1
  rw [if_neg hcond] at h1
  dsimp only at h1
  have hok : u.organizationId = none ∨ u.organizationId = some a.targetOrgId := by
    rcases ho : u.organizationId with _ | v
    · exact Or.inl rfl
    · right
      have hv0 : v ≠ 0 := by
        intro h0
        exact horg0 u humem (by rw [ho, h0])
      have hcond' : ¬ ((natTruthy u.organizationId
          && decide (u.organizationId ≠ some a.targetOrgId)) = true) := hcond
      rw [ho] at hcond'
      simp [natTruthy, hv0] at hcond'
      exact congrArg some hcond'
  -- the collision check and the remaining guards
  have hcol : usernameCollision s (resolveTargetOrgUsername a.targetOrgUsername u team)
      a.targetOrgId a.userId = none := by
    rcases hc : usernameCollision s (resolveTargetOrgUsername a.targetOrgUsername u team)
        a.targetOrgId a.userId with _ | e
    · rfl
    · rw [hc] at h1
      dsimp only at h1
      exact RunResult.noConfusion h1
  rw [hcol] at h1
  dsimp only at h1
  have hrem : assertUserPartOfOrgAndRemigrationAllowed u a.targetOrgId = none := by
    unfold assertUserPartOfOrgAndRemigrationAllowed
    rcases hok with ho | ho
    · rw [ho]
      simp [natTruthy]
    · rw [ho]
      simp [natTruthy]
  rw [hrem] at h1
  dsimp only at h1
  rcases hnn : truthyStr (nonOrgUserNameOf u) with _ | nn
  · rw [hnn] at h1
    dsimp only at h1
    exact RunResult.noConfusion h1
  rw [hnn] at h1
  dsimp only at h1
  -- interpret the collision result
  have hcolfind : s.users.find? (fun w => decide (w.username
        = some (resolveTargetOrgUsername a.targetOrgUsername u team)
        ∧ w.organizationId = some a.targetOrgId)) = none ∨
      s.users.find? (fun w => decide (w.username
        = some (resolveTargetOrgUsername a.targetOrgUsername u team)
        ∧ w.organizationId = some a.targetOrgId)) = some u := by
    unfold usernameCollision at hcol
    rcases hfw : s.users.find? (fun w => decide (w.username
        = some (resolveTargetOrgUsername a.targetOrgUsername u team)
        ∧ w.organizationId = some a.targetOrgId)) with _ | w
    · exact Or.inl hfw
    · right
      rw [hfw] at hcol
      dsimp only at hcol
      by_cases hwid : some w.id ≠ a.userId
      · rw [if_pos hwid] at hcol
        exact Option.noConfusion hcol
      · have hwid' : w.id = uid := by
          have : some w.id = a.userId := by
            by_contra hc
            exact hwid hc
          rw [hid] at this
          exact Option.some.inj this
        have hww : w = u := pairwise_ne_unique (fun x => x.id) husers w u
          (List.mem_of_find?_eq_some hfw) humem (by show w.id = u.id; rw [hwid', huid])
        rw [hfw, hww]
  -- the mutation tail
  have hteammem : team ∈ s.teams := List.mem_of_find?_eq_some hteamf
  have hteamid : team.id = a.targetOrgId := by simpa using List.find?_some hteamf
  obtain ⟨osl, hfun, hspec⟩ := OrgMigration.applyMigration_ok_spec s u team a.targetOrgId
    (resolveTargetOrgUsername a.targetOrgUsername u team) nn a.targetOrgRole
    a.targetOrgMembershipAccepted now s1 uid huid hteams hteammem hteamid horg
    (truthyStr_eq_some hnn).2 h1
  exact ⟨team, u, nn, osl, hfun, rfl, horg, rfl, huid, hok, hnn, hcolfind,
    hspec.1, hspec.2.1, hspec.2.2.1, hspec.2.2.2.1, hspec.2.2.2.2.1, hspec.2.2.2.2.2.1,
    hspec.2.2.2.2.2.2.1, hspec.2.2.2.2.2.2.2.1, hspec.2.2.2.2.2.2.2.2.1,
    hspec.2.2.2.2.2.2.2.2.2.1, hspec.2.2.2.2.2.2.2.2.2.2.1, hspec.2.2.2.2.2.2.2.2.2.2.2⟩

/-- C2 (amended): for a user designated by `userId`, a successful
`migrateUserToOrg` is idempotent: re-running it with identical arguments (and
the same clock reading) succeeds and leaves the store exactly as after the
first run.  The by-`userName` half of the original claim fails, see the
counterexample. -/
theorem c2_amended (a : OrgMigration.MigrateUserArgs) (now : Nat) (s s1 : Store) (uid : Nat)
    (hid : a.userId = some uid) (hname : a.userName = none) (huid0 : uid ≠ 0)
    (husers : s.users.Pairwise (fun x y => x.id ≠ y.id))
    (hteams : s.teams.Pairwise (fun x y => x.id ≠ y.id))
    (horg0 : ∀ v ∈ s.users, v.organizationId ≠ some 0)
    (h1 : OrgMigration.migrateUserToOrg a now s = RunResult.ok () s1) :
    OrgMigration.migrateUserToOrg a now s1 = RunResult.ok () s1 := by
  obtain ⟨team, u, nn, osl, hfun, hteamf, horg, hfind, huid, hok, hnn, hcolf,
    hU, hM, hT, hTm, hfid, hfmeta, hfpar, hfslug, hosl, hosl2, hRu, hRt⟩ :=
    OrgMigration.migrate_ok_spec a now s s1 uid hid hname huid0 husers hteams horg0 h1
  set tun := OrgMigration.resolveTargetOrgUsername a.targetOrgUsername u team with htun
  set uf := OrgMigration.migratedUserUpd uid a.targetOrgId tun nn now with hufdef
  have hnnE : nn.isEmpty = false := (truthyStr_eq_some hnn).2
  have hfind' : s.users.find? (fun x => decide (x.id = uid)) = some u := hfind
  have hteamf' : s.teams.find? (fun x => decide (x.id = a.targetOrgId)) = some team := hteamf
  have hteammem : team ∈ s.teams := List.mem_of_find?_eq_some hteamf'
  have hteamid : team.id = a.targetOrgId := by simpa using List.find?_some hteamf'
  have hu2 : uf u = { u with organizationId := some a.targetOrgId, username := some tun,
                             metadata := { migratedToOrgFrom := some ⟨some nn, none, none, some now⟩ } } := by
    rw [hufdef]
    unfold OrgMigration.migratedUserUpd
    rw [if_pos huid]
  have hufid : ∀ x : User, (uf x).id = x.id := by
    intro x
    rw [hufdef]
    unfold OrgMigration.migratedUserUpd
    by_cases hx : x.id = uid
    · rw [if_pos hx]
    · rw [if_neg hx]
  have hufu_id : (uf u).id = uid := by rw [hufid u, huid]
  -- the run-2 preliminary checks
  have hfind2 : findUserById s1 uid = some (uf u) := by
    unfold findUserById
    rw [hU, find?_map_pred s.users uf (fun x => decide (x.id = uid))
      (fun x => by dsimp only; rw [hufid x]), hfind', Option.map_some']
  have hteamf2 : findTeamById s1 a.targetOrgId = some (hfun team) := by
    unfold findTeamById
    rw [hTm, find?_map_pred s.teams hfun (fun x => decide (x.id = a.targetOrgId))
      (fun x => by dsimp only; rw [hfid x]), hteamf', Option.map_some']
  have horg2 : (hfun team).metadata.isOrganization = true := by rw [hfmeta team, horg]
  have hok2 : (uf u).organizationId = none ∨ (uf u).organizationId = some a.targetOrgId :=
    Or.inr (by rw [hu2])
  have htun2 : OrgMigration.resolveTargetOrgUsername a.targetOrgUsername (uf u) (hfun team)
      = tun := by
    have hemail : (uf u).email = u.email := by rw [hu2]
    rw [htun]
    unfold OrgMigration.resolveTargetOrgUsername
    rw [hfmeta team, hemail]
  -- run-2 collision check resolves to the (already migrated) user itself
  have hmap' : s1.users = s.users.map (fun x => if x.id = uid then
      ({ x with organizationId := some a.targetOrgId, username := some tun,
                metadata := { migratedToOrgFrom := some ⟨some nn, none, none, some now⟩ } } : User)
      else x) := hU
  have hcolfind2 : s1.users.find? (fun w => decide (w.username = some tun
      ∧ w.organizationId = some a.targetOrgId)) = some (uf u) := by
    rw [hmap', hu2]
    exact find?_upd (fun x => x.id = uid)
      (fun w => decide (w.username = some tun ∧ w.organizationId = some a.targetOrgId))
      (fun x => { x with organizationId := some a.targetOrgId, username := some tun,
                         metadata := { migratedToOrgFrom := some ⟨some nn, none, none, some now⟩ } })
      s.users u hfind' hcolf (by simp)
  have hcol2 : OrgMigration.usernameCollision s1 tun a.targetOrgId a.userId = none := by
    unfold OrgMigration.usernameCollision
    rw [hcolfind2]
    dsimp only
    rw [if_neg (show ¬(some (uf u).id ≠ a.userId) by rw [hufu_id, hid]; simp)]
  have hnn2 : truthyStr (OrgMigration.nonOrgUserNameOf (uf u)) = some nn := by
    have hval : OrgMigration.nonOrgUserNameOf (uf u) = some nn := by
      rw [hu2]
      unfold OrgMigration.nonOrgUserNameOf orElseStr
      dsimp only
      rw [if_pos (show strTruthy (some nn) = true by unfold strTruthy; simp [hnnE])]
    rw [hval]
    exact truthyStr_some_of_nonempty hnnE
  -- teams of `s1` that would be reparented again
  have hgne : ∀ t ∈ s.teams, t.metadata.isOrganization = false → t.id ≠ a.targetOrgId := by
    intro t ht hno hgt
    have hte : t = team := pairwise_ne_unique (fun x => x.id) hteams t team ht hteammem
      (by show t.id = team.id; rw [hgt, hteamid])
    rw [hte, horg] at hno
    exact Bool.noConfusion hno
  have hNOT : nonOrgMembershipTeams s1 uid = (nonOrgMembershipTeams s uid).map hfun := by
    unfold nonOrgMembershipTeams
    rw [hTm, nonOrgTeamsOf_map s.teams _ hfun hfid hfmeta,
      nonOrgTeamsOf_congr_tids s.teams (userMembershipTeamIds s1 uid)
        (userMembershipTeamIds s uid)
        (fun t ht hno => by
          rw [hT t.id]
          constructor
          · rintro (h | h)
            · exact h
            · exact absurd h (hgne t ht hno)
          · exact Or.inl)]
  have hIds : nonOrgMembershipTeamIds s1 uid = nonOrgMembershipTeamIds s uid := by
    unfold nonOrgMembershipTeamIds
    rw [hNOT, List.map_map]
    apply map_congr_mem
    intro t ht
    show (hfun t).id = t.id
    exact hfid t
  have hlen1 : (userMemberships s1 uid).length ≠ 0 := by
    intro h0
    rw [List.length_eq_zero] at h0
    have hg := (hT a.targetOrgId).mpr (Or.inr rfl)
    unfold userMembershipTeamIds at hg
    rw [h0] at hg
    simp at hg
  -- each mutation of the run-2 tail is a no-op on s1
  have hsA : OrgMigration.updateUser s1 (uf u) a.targetOrgId tun nn now = s1 := by
    apply Store.eq_of_fields
    · rw [OrgMigration.updateUser_users, hufu_id, ← hufdef, hU, List.map_map]
      apply map_congr_mem
      intro x hx
      show uf (uf x) = uf x
      rw [hufdef]
      by_cases hx' : x.id = uid
      · simp [OrgMigration.migratedUserUpd, hx']
      · simp [OrgMigration.migratedUserUpd, hx']
    · rw [OrgMigration.updateUser_teams]
    · rw [OrgMigration.updateUser_memberships]
    · rw [OrgMigration.updateUser_redirects]
  have hpB2 : (OrgMigration.updateTeams s1 uid a.targetOrgId).2 = s1 := by
    apply Store.eq_of_fields
    · rw [OrgMigration.updateTeams_snd_users]
    · rw [OrgMigration.updateTeams_snd_teams]
      apply map_self
      intro t ht
      by_cases hin : t.id ∈ nonOrgMembershipTeamIds s1 uid
      · rw [if_pos hin]
        have hpar : t.parentId = some a.targetOrgId := by
          rw [hIds] at hin
          rw [hTm] at ht
          obtain ⟨t0, ht0, hteq⟩ := List.mem_map.mp ht
          have ht0in : t0.id ∈ nonOrgMembershipTeamIds s uid := by
            rw [← hteq, hfid t0] at hin
            exact hin
          rw [← hteq]
          exact hfpar t0 ht0 ht0in
        rcases t with ⟨tid2, tsl, tpar, tmd⟩
        dsimp only at hpar
        rw [hpar]
      · rw [if_neg hin]
    · rw [OrgMigration.updateTeams_snd_memberships]
    · rw [OrgMigration.updateTeams_snd_redirects]
  have hsC : upsertMembership s1 uid a.targetOrgId a.targetOrgRole a.targetOrgMembershipAccepted
      = s1 := upsertMembership_noop s1 uid a.targetOrgId a.targetOrgRole
        a.targetOrgMembershipAccepted hM
  have hsD : OrgMigration.addRedirect s1 (some nn) (hfun team) tun
      (nonOrgMembershipTeams s1 uid) = s1 := by
    apply OrgMigration.addRedirect_noop s1 nn hnnE (hfun team) tun
      (nonOrgMembershipTeams s1 uid) osl
    · rw [orElseStr_first hosl2]
      exact hosl2
    · exact hRu
    · intro t ht sl hsl
      rw [hNOT] at ht
      obtain ⟨t0, ht0, hteq⟩ := List.mem_map.mp ht
      have ht0mem : t0 ∈ s.teams := ((mem_nonOrgTeamsOf s.teams _ t0).mp ht0).1
      have ht0no : t0.metadata.isOrganization = false := ((mem_nonOrgTeamsOf s.teams _ t0).mp ht0).2.2
      have hslug0 : t0.slug = t.slug := by
        rw [← hteq]
        exact (hfslug t0 ht0mem (hgne t0 ht0mem ht0no)).symm
      apply hRt t0 ht0 sl
      rw [hslug0]
      exact hsl
  have hfin : OrgMigration.setOrgSlugIfNotSet (hfun team).slug (hfun team).metadata.requestedSlug
      a.targetOrgId s1 = Except.ok s1 := by
    unfold OrgMigration.setOrgSlugIfNotSet
    rw [if_pos (strTruthy_of_truthyStr hosl2)]
  -- assemble the second run
  rw [OrgMigration.migrate_reduce_byId a now s1 (hfun team) (uf u) uid hid hname huid0
    hteamf2 horg2 hfind2 hok2]
  rw [htun2, hcol2]
  dsimp only
  rw [hnn2]
  dsimp only
  unfold OrgMigration.applyMigration OrgMigration.updateMembership
  dsimp only
  rw [hsA, hufu_id, hpB2, hsC, OrgMigration.updateTeams_fst, hsD, hfin]

/-- Initial store for the C2 example: a standalone user and an organization. -/
def c2Store : Store :=
  ⟨[⟨1, some "alice", "alice@acme.com", none, ⟨none⟩⟩],
   [⟨10, some "acme", none, ⟨true, none, none⟩⟩], [], []⟩

/-- The store after the first successful migration of the C2 example. -/
def c2Store1 : Store :=
  ⟨[⟨1, some "alice-new", "alice@acme.com", some 10, ⟨some ⟨some "alice", none, none, some 5⟩⟩⟩],
   [⟨10, some "acme", none, ⟨true, none, none⟩⟩],
   [⟨1, 10, MembershipRole.MEMBER, true⟩],
   [⟨RedirectType.User, "alice", 0, "https://acme.cal.com/alice-new"⟩]⟩

/-- C2 counterexample: when the user is designated by `userName`, a successful
`migrateUserToOrg` is not idempotent: the second invocation with identical
arguments fails with the 400 user-not-found-or-part-of-org error, because the
first run renamed the user to the organization username, so the `userName`
lookup no longer matches anybody. -/
theorem c2_counterexample :
    OrgMigration.migrateUserToOrg ⟨none, some "alice", 10, some "alice-new",
        MembershipRole.MEMBER, true⟩ 5 c2Store = RunResult.ok () c2Store1 ∧
      OrgMigration.migrateUserToOrg ⟨none, some "alice", 10, some "alice-new",
        MembershipRole.MEMBER, true⟩ 5 c2Store1
        = RunResult.err (MigErr.http 400 ErrTag.userNotFoundOrPartOfOrg) c2Store1 :=
  ⟨rfl, rfl⟩

/-- Witness for `c2_amended` at the concrete C2 example. -/
theorem c2_witness :
    OrgMigration.migrateUserToOrg ⟨some 1, none, 10, some "alice-new",
      MembershipRole.MEMBER, true⟩ 5 c2Store1 = RunResult.ok () c2Store1 :=
  c2_amended ⟨some 1, none, 10, some "alice-new", MembershipRole.MEMBER, true⟩ 5
    c2Store c2Store1 1 rfl rfl (by decide) (by decide) (by decide) (by decide) rfl

/-- C3 (confirmed): for a standalone user (no organization, no migration
provenance) designated by `userId`, a successful `migrateUserToOrg` followed by
a successful `removeFromOrg` for the same user and `targetOrgId` restores
`organizationId` to null and `username` to the original standalone username,
deletes the `(userId, targetOrgId)` membership row, and removes the user
redirect mapping and the redirect mapping of every relocated team. -/
theorem c3_round_trip (a : OrgMigration.MigrateUserArgs) (now now2 : Nat)
    (s s1 s2 : Store) (uid : Nat) (u : User)
    (hid : a.userId = some uid) (hname : a.userName = none) (huid0 : uid ≠ 0)
    (husers : s.users.Pairwise (fun x y => x.id ≠ y.id))
    (hteams : s.teams.Pairwise (fun x y => x.id ≠ y.id))
    (horg0 : ∀ v ∈ s.users, v.organizationId ≠ some 0)
    (hfindu : findUserById s uid = some u)
    (hstand : u.organizationId = none)
    (hprov : u.metadata.migratedToOrgFrom = none)
    (h1 : OrgMigration.migrateUserToOrg a now s = RunResult.ok () s1)
    (h2 : RemoveUserFromOrg.removeFromOrg a.targetOrgId uid now2 s1 = RunResult.ok () s2) :
    (∃ u2 : User, findUserById s2 uid = some u2 ∧ u2.organizationId = none ∧
      u2.username = u.username) ∧
    s2.memberships.any (fun m => membershipKeyIs m uid a.targetOrgId) = false ∧
    (∀ un, truthyStr u.username = some un → redirectAbsent s2 RedirectType.User un 0) ∧
    (∀ t ∈ nonOrgMembershipTeams s uid, ∀ sl, truthyStr t.slug = some sl →
      redirectAbsent s2 RedirectType.Team sl 0) := by
  obtain ⟨team, uu, nn, osl, hfun, hteamf, horg, hfind, huid, hok, hnn, hcolf,
    hU, hM, hT, hTm, hfid, hfmeta, hfpar, hfslug, hosl, hosl2, hRu, hRt⟩ :=
    OrgMigration.migrate_ok_spec a now s s1 uid hid hname huid0 husers hteams horg0 h1
  have huu : u = uu := by
    rw [hfindu] at hfind
    exact Option.some.inj hfind
  subst huu
  set tun := OrgMigration.resolveTargetOrgUsername a.targetOrgUsername u team with htun
  set uf := OrgMigration.migratedUserUpd uid a.targetOrgId tun nn now with hufdef
  have hnnE : nn.isEmpty = false := (truthyStr_eq_some hnn).2
  have hteamf' : s.teams.find? (fun x => decide (x.id = a.targetOrgId)) = some team := hteamf
  have hteammem : team ∈ s.teams := List.mem_of_find?_eq_some hteamf'
  have hteamid : team.id = a.targetOrgId := by simpa using List.find?_some hteamf'
  -- the recorded provenance username is the original standalone username
  have hnonorg : OrgMigration.nonOrgUserNameOf u = u.username := by
    unfold OrgMigration.nonOrgUserNameOf
    rw [hprov]
    dsimp only
    unfold orElseStr
    rw [if_neg (show ¬(strTruthy none = true) by unfold strTruthy; simp)]
  have hnnu : truthyStr u.username = some nn := by
    rw [← hnonorg]
    exact hnn
  have husome : u.username = some nn := (truthyStr_eq_some hnnu).1
  -- the migrated user record
  have hu2 : uf u = { u with organizationId := some a.targetOrgId, username := some tun,
                             metadata := { migratedToOrgFrom := some ⟨some nn, none, none, some now⟩ } } := by
    rw [hufdef]
    unfold OrgMigration.migratedUserUpd
    rw [if_pos huid]
  have hufid : ∀ x : User, (uf x).id = x.id := by
    intro x
    rw [hufdef]
    unfold OrgMigration.migratedUserUpd
    by_cases hx : x.id = uid
    · rw [if_pos hx]
    · rw [if_neg hx]
  have hufu_id : (uf u).id = uid := by rw [hufid u, huid]
  have hfindu' : s.users.find? (fun x => decide (x.id = uid)) = some u := hfindu
  have hfind2 : findUserById s1 uid = some (uf u) := by
    unfold findUserById
    rw [hU, find?_map_pred s.users uf (fun x => decide (x.id = uid))
      (fun x => by dsimp only; rw [hufid x]), hfindu', Option.map_some']
  have hfind2' : s1.users.find? (fun x => decide (x.id = uid)) = some (uf u) := hfind2
  have horgid1 : (uf u).organizationId = some a.targetOrgId := by rw [hu2]
  have hprov1 : (uf u).metadata.migratedToOrgFrom = some ⟨some nn, none, none, some now⟩ := by
    rw [hu2]
  -- non-org teams of s1 are the relocated images of those of s
  have hgne : ∀ t ∈ s.teams, t.metadata.isOrganization = false → t.id ≠ a.targetOrgId := by
    intro t ht hno hgt
    have hte : t = team := pairwise_ne_unique (fun x => x.id) hteams t team ht hteammem
      (by show t.id = team.id; rw [hgt, hteamid])
    rw [hte, horg] at hno
    exact Bool.noConfusion hno
  have hNOT : nonOrgMembershipTeams s1 uid = (nonOrgMembershipTeams s uid).map hfun := by
    unfold nonOrgMembershipTeams
    rw [hTm, nonOrgTeamsOf_map s.teams _ hfun hfid hfmeta,
      nonOrgTeamsOf_congr_tids s.teams (userMembershipTeamIds s1 uid)
        (userMembershipTeamIds s uid)
        (fun t ht hno => by
          rw [hT t.id]
          constructor
          · rintro (h | h)
            · exact h
            · exact absurd h (hgne t ht hno)
          · exact Or.inl)]
  -- walk the removal run
  unfold RemoveUserFromOrg.removeFromOrg at h2
  rw [hfind2] at h2
  dsimp only at h2
  rw [if_neg (show ¬((uf u).organizationId ≠ some a.targetOrgId) from fun hc => hc horgid1)] at h2
  rw [hprov1] at h2
  dsimp only at h2
  rw [if_neg (show ¬((none : Option Bool) = some true) by simp)] at h2
  rw [truthyStr_some_of_nonempty hnnE] at h2
  dsimp only at h2
  rw [hufu_id] at h2
  set sD := RemoveUserFromOrg.removeRedirect
      (RemoveUserFromOrg.updateUser (RemoveUserFromOrg.updateTeams s1 uid).2 uid nn now2)
      (some nn) (RemoveUserFromOrg.updateTeams s1 uid).1 with hsD
  have hmemD : sD.memberships = s1.memberships := by
    rw [hsD, RemoveUserFromOrg.removeRedirect_proj Store.memberships (fun _ _ _ _ => rfl),
      RemoveUserFromOrg.revUpdateUser_memberships, RemoveUserFromOrg.revUpdateTeams_snd_memberships]
  set rfn := (fun x : User => if x.id = uid then
      ({ x with organizationId := none, username := some nn,
                metadata := { migratedToOrgFrom := some ⟨none, some true, some now2, none⟩ } } : User)
      else x) with hrfn
  have husersD : sD.users = s1.users.map rfn := by
    rw [hsD, RemoveUserFromOrg.removeRedirect_proj Store.users (fun _ _ _ _ => rfl)]
    show ((RemoveUserFromOrg.updateTeams s1 uid).2.users).map _ = _
    rw [RemoveUserFromOrg.revUpdateTeams_snd_users]
  have huserabs : redirectAbsent sD RedirectType.User nn 0 := by
    rw [hsD]
    exact RemoveUserFromOrg.removeRedirect_user_absent _ nn hnnE _
  have hteamabs : ∀ t ∈ nonOrgMembershipTeams s1 uid, ∀ sl, truthyStr t.slug = some sl →
      redirectAbsent sD RedirectType.Team sl 0 := by
    intro t ht sl hsl
    rw [hsD]
    exact RemoveUserFromOrg.removeRedirect_team_absent _ nn hnnE _ t
      (by rw [RemoveUserFromOrg.revUpdateTeams_fst]; exact ht) sl hsl
  have hexD : sD.memberships.any (fun m => membershipKeyIs m uid a.targetOrgId) = true := by
    rw [hmemD]
    exact hM.1
  unfold RemoveUserFromOrg.removeMembership deleteMembership at h2
  rw [if_pos hexD] at h2
  dsimp only at h2
  have hs2 : ({ sD with memberships := sD.memberships.filter (fun m => !membershipKeyIs m uid a.targetOrgId) } : Store) = s2 :=
    (RunResult.ok.inj h2).2
  have hs2u : s2.users = s1.users.map rfn := by
    rw [← hs2]
    exact husersD
  have hs2m : s2.memberships = s1.memberships.filter
      (fun m => !membershipKeyIs m uid a.targetOrgId) := by
    rw [← hs2]
    show sD.memberships.filter _ = _
    rw [hmemD]
  have hs2r : s2.redirects = sD.redirects := by
    rw [← hs2]
  -- conclusions
  refine ⟨⟨rfn (uf u), ?_, ?_, ?_⟩, ?_, ?_, ?_⟩
  · unfold findUserById
    rw [hs2u, find?_map_pred _ _ _ (fun x => by
      rw [hrfn]
      dsimp only
      by_cases hx : x.id = uid
      · rw [if_pos hx]
      · rw [if_neg hx]), hfind2', Option.map_some']
  · rw [hrfn]
    dsimp only
    rw [if_pos hufu_id]
  · rw [hrfn]
    dsimp only
    rw [if_pos hufu_id, husome]
  · rw [hs2m]
    exact any_filter_not _ _
  · intro un hun
    have hunnn : un = nn := by
      rw [hnnu] at hun
      exact (Option.some.inj hun).symm
    subst hunnn
    unfold redirectAbsent at huserabs ⊢
    rw [hs2r]
    exact huserabs
  · intro t ht sl hsl
    have htmem : t ∈ s.teams := ((mem_nonOrgTeamsOf s.teams _ t).mp ht).1
    have htno : t.metadata.isOrganization = false := ((mem_nonOrgTeamsOf s.teams _ t).mp ht).2.2
    have ht1 : hfun t ∈ nonOrgMembershipTeams s1 uid := by
      rw [hNOT]
      exact List.mem_map_of_mem hfun ht
    have hslug1 : truthyStr (hfun t).slug = some sl := by
      rw [hfslug t htmem (hgne t htmem htno)]
      exact hsl
    have habs := hteamabs (hfun t) ht1 sl hslug1
    unfold redirectAbsent at habs ⊢
    rw [hs2r]
    exact habs

/-- Initial store for the C3 example: a standalone user, an organization, and
a plain team the user is a member of. -/
def c3Store : Store :=
  ⟨[⟨1, some "alice", "alice@acme.com", none, ⟨none⟩⟩],
   [⟨10, some "acme", none, ⟨true, none, none⟩⟩, ⟨2, some "vteam", none, ⟨false, none, none⟩⟩],
   [⟨1, 2, MembershipRole.MEMBER, true⟩], []⟩

/-- The C3 example store after the migration. -/
def c3Store1 : Store :=
  ⟨[⟨1, some "alice-new", "alice@acme.com", some 10, ⟨some ⟨some "alice", none, none, some 5⟩⟩⟩],
   [⟨10, some "acme", none, ⟨true, none, none⟩⟩, ⟨2, some "vteam", some 10, ⟨false, none, none⟩⟩],
   [⟨1, 2, MembershipRole.MEMBER, true⟩, ⟨1, 10, MembershipRole.MEMBER, true⟩],
   [⟨RedirectType.User, "alice", 0, "https://acme.cal.com/alice-new"⟩,
    ⟨RedirectType.Team, "vteam", 0, "https://acme.cal.com/team/vteam"⟩]⟩

/-- The C3 example store after the removal that follows the migration. -/
def c3Store2 : Store :=
  ⟨[⟨1, some "alice", "alice@acme.com", none, ⟨some ⟨none, some true, some 8, none⟩⟩⟩],
   [⟨10, some "acme", none, ⟨true, none, none⟩⟩, ⟨2, some "vteam", none, ⟨false, none, none⟩⟩],
   [⟨1, 2, MembershipRole.MEMBER, true⟩], []⟩

/-- Witness for `c3_round_trip` at the concrete C3 example. -/
theorem c3_witness :
    (∃ u2 : User, findUserById c3Store2 1 = some u2 ∧ u2.organizationId = none ∧
      u2.username = (⟨1, some "alice", "alice@acme.com", none, ⟨none⟩⟩ : User).username) ∧
    c3Store2.memberships.any (fun m => membershipKeyIs m 1 10) = false ∧
    (∀ un, truthyStr (⟨1, some "alice", "alice@acme.com", none, ⟨none⟩⟩ : User).username
        = some un → redirectAbsent c3Store2 RedirectType.User un 0) ∧
    (∀ t ∈ nonOrgMembershipTeams c3Store 1, ∀ sl, truthyStr t.slug = some sl →
      redirectAbsent c3Store2 RedirectType.Team sl 0) :=
  c3_round_trip ⟨some 1, none, 10, some "alice-new", MembershipRole.MEMBER, true⟩ 5 8
    c3Store c3Store1 c3Store2 1 ⟨1, some "alice", "alice@acme.com", none, ⟨none⟩⟩
    rfl rfl (by decide) (by decide) (by decide) (by decide) rfl rfl rfl rfl rfl
